import Mathlib

/-!
# STM32F446xx flash driver: shallow embedding and verified properties

Embedding of `drivers/src/stm32f446xx_flash.c`.

* Registers are natural numbers; every register write truncates to 32 bits, so a register
  holds what software last wrote to it (the hardware never rewrites CR, OPTCR or ACR here).
* The status register SR is driven by the hardware: the `n`-th read of SR returns `SR n`.
  `polls` counts the reads made so far.
* The busy-wait loop may spin forever, so every operation that waits takes a bound `fuel`
  on the number of polls of one wait and returns `none` when the bound is exhausted.
* Pointer arguments are modelled as the objects they point to (functions from a byte index
  to a byte); the flash array is a function from an address to a byte.  Pointer increments
  are plain additions: C gives no meaning to a pointer that wraps around.
-/

namespace Stm32

/-! ## Machine arithmetic -/

/-- Conversion to `uint32_t`. -/
def u32 (x : Nat) : Nat := x % 2 ^ 32

/-- Conversion to `uint8_t`. -/
def u8 (x : Nat) : Nat := x % 2 ^ 8

/-- The C operator `~` on a 32-bit operand. -/
def not32 (x : Nat) : Nat := (2 ^ 32 - 1) ^^^ (x % 2 ^ 32)

/-- Subtraction of two `uint32_t` values, wrapping modulo `2 ^ 32`. -/
def sub32 (a b : Nat) : Nat := (a % 2 ^ 32 + 2 ^ 32 - b % 2 ^ 32) % 2 ^ 32

/-- The field of `width` bits of register value `r` that starts at bit `pos`. -/
def field (r pos width : Nat) : Nat := (r >>> pos) % 2 ^ width

/-! ## Constants of the missing headers -/

/-- Modelled from the spec: `stm32f446xx_flash.h` is missing; the wait-state (LATENCY) field
is the 4-bit field at the bottom of the access-control register. -/
def FLASH_ACR_LATENCY : Nat := 0

/-- Modelled from the spec: `stm32f446xx_flash.h` is missing; program-mode bit of the control
register, one of its low 7 configuration bits. -/
def FLASH_CR_PG : Nat := 0

/-- Modelled from the spec: `stm32f446xx_flash.h` is missing; sector-erase bit of the control
register, one of its low 7 configuration bits. -/
def FLASH_CR_SER : Nat := 1

/-- Modelled from the spec: `stm32f446xx_flash.h` is missing; mass-erase bit of the control
register, one of its low 7 configuration bits. -/
def FLASH_CR_MER : Nat := 2

/-- Modelled from the spec: `stm32f446xx_flash.h` is missing; start of the 4-bit sector-number
field, which fills the rest of the low 7 configuration bits. -/
def FLASH_CR_SNB : Nat := 3

/-- Modelled from the spec: `stm32f446xx_flash.h` is missing; start of the 2-bit program-size
field of the control register. -/
def FLASH_CR_PSIZE : Nat := 8

/-- Modelled from the spec: `stm32f446xx_flash.h` is missing; start bit of the control
register. -/
def FLASH_CR_STRT : Nat := 16

/-- Modelled from the spec: `stm32f446xx_flash.h` is missing; lock bit of the control
register. -/
def FLASH_CR_LOCK : Nat := 31

/-- Modelled from the spec: `stm32f446xx_flash.h` is missing; busy bit of the status
register. -/
def FLASH_SR_BSY : Nat := 16

/-- Modelled from the spec: `stm32f446xx_flash.h` is missing; option-lock bit of the
option-control register. -/
def FLASH_OPTCR_OPTLOCK : Nat := 0

/-- Modelled from the spec: `stm32f446xx_flash.h` is missing; option-apply/start bit of the
option-control register. -/
def FLASH_OPTCR_OPTSTRT : Nat := 1

/-- Modelled from the spec: `stm32f446xx_flash.h` is missing; start of the 8-bit
write-protection bitmap of the option-control register. -/
def FLASH_OPTCR_NWRP : Nat := 16

/-- Modelled from the spec: `stm32f446xx_flash.h` is missing; PCROP-mode bit of the
option-control register. -/
def FLASH_OPTCR_SPRMOD : Nat := 31

/-- Modelled from the spec: `stm32f446xx_flash.h` is missing; result of a rejected read. -/
def FLASH_FAIL : Nat := 0

/-- Modelled from the spec: `stm32f446xx_flash.h` is missing; result of an accepted read. -/
def FLASH_SUCCESS : Nat := 1

/-- Modelled from the spec: `stm32f446xx_flash.h` is missing; protection level none. -/
def FLASH_PROT_NONE : Nat := 0

/-- Modelled from the spec: `stm32f446xx_flash.h` is missing; protection level
write-protected. -/
def FLASH_PROT_WRITE : Nat := 1

/-- Modelled from the spec: `stm32f446xx_flash.h` is missing; protection level
read+write-protected. -/
def FLASH_PROT_READ_WRITE : Nat := 2

/-- Modelled from the spec: `stm32f446xx_flash.h` is missing; value of the PCROP-mode flag
when the mode is off. -/
def FLASH_PROT_MODE_OFF : Nat := 0

/-- Modelled from the spec: `stm32f446xx_flash.h` is missing; value of the PCROP-mode flag
when the mode is on. -/
def FLASH_PROT_MODE_ON : Nat := 1

/-- Modelled from the spec: the device header is missing; the divisor `1_000_000` of the
wait-state formula. -/
def MEGA : Nat := 1000000

/-- Modelled from the spec: the device header is missing; truth value returned for a set
status bit. -/
def SET : Nat := 1

/-- Modelled from the spec: the device header is missing; truth value returned for a clear
status bit. -/
def RESET : Nat := 0

/-- First key of the control-register unlock sequence. -/
def FLASH_KEY1 : Nat := 0x45670123

/-- Second key of the control-register unlock sequence. -/
def FLASH_KEY2 : Nat := 0xCDEF89AB

/-- First key of the option-control-register unlock sequence. -/
def FLASH_OPT_KEY1 : Nat := 0x08192A3B

/-- Second key of the option-control-register unlock sequence. -/
def FLASH_OPT_KEY2 : Nat := 0x4C5D6E7F

/-! ## State -/

/-- The flash register block `FLASH`, the flash array, and the log of word stores. -/
structure Flash where
  /-- Access-control register. -/
  ACR : Nat
  /-- Values written to the write-only key register, oldest first. -/
  KEYR : List Nat
  /-- Values written to the write-only option-key register, oldest first. -/
  OPTKEYR : List Nat
  /-- Status register as driven by the hardware: `SR n` is what the `n`-th read returns. -/
  SR : Nat → Nat
  /-- Number of reads of the status register made so far. -/
  polls : Nat
  /-- Control register. -/
  CR : Nat
  /-- Option-control register. -/
  OPTCR : Nat
  /-- Byte stored at each address. -/
  mem : Nat → Nat
  /-- Word stores issued through `flash_ptr`, oldest first, as pairs (address, word). -/
  stores : List (Nat × Nat)

/-! ## Lock / unlock sequencer and busy-wait -/

/-- Source function `flash_is_status_bit_set`: one read of SR, tested against
`1 << bit_position`. -/
def flash_is_status_bit_set (bit_position : Nat) (s : Flash) : Nat × Flash :=
  (if u32 (s.SR s.polls &&& u32 (1 <<< bit_position)) ≠ 0 then SET else RESET,
   { s with polls := s.polls + 1 })

/-- Source function `wait_for_not_busy`: poll the busy bit until it reads clear, at most
`fuel` polls. -/
def wait_for_not_busy : Nat → Flash → Option Flash
  | 0, _ => none
  | fuel + 1, s =>
    if (flash_is_status_bit_set FLASH_SR_BSY s).1 ≠ 0 then
      wait_for_not_busy fuel (flash_is_status_bit_set FLASH_SR_BSY s).2
    else
      some (flash_is_status_bit_set FLASH_SR_BSY s).2

/-- Source function `flash_lock`: `FLASH->CR |= (1 << FLASH_CR_LOCK)`. -/
def flash_lock (s : Flash) : Flash :=
  { s with CR := u32 (s.CR ||| u32 (1 <<< FLASH_CR_LOCK)) }

/-- Source function `flash_unlock`: the two keys, in order, then the busy-wait. -/
def flash_unlock (fuel : Nat) (s : Flash) : Option Flash :=
  wait_for_not_busy fuel { s with KEYR := s.KEYR ++ [FLASH_KEY1] ++ [FLASH_KEY2] }

/-- Source function `flash_opt_lock`: `FLASH->OPTCR |= (1 << FLASH_OPTCR_OPTLOCK)`. -/
def flash_opt_lock (s : Flash) : Flash :=
  { s with OPTCR := u32 (s.OPTCR ||| u32 (1 <<< FLASH_OPTCR_OPTLOCK)) }

/-- Source function `flash_opt_unlock`: the two option keys, in order, then the busy-wait. -/
def flash_opt_unlock (fuel : Nat) (s : Flash) : Option Flash :=
  wait_for_not_busy fuel { s with OPTKEYR := s.OPTKEYR ++ [FLASH_OPT_KEY1] ++ [FLASH_OPT_KEY2] }

/-! ## Timing calibrator -/

/-- Source function `flash_init`.  `system_clock` is the value returned by
`rcc_get_system_clock_freq()`, which belongs to the clock driver. -/
def flash_init (fuel : Nat) (system_clock : Nat) (s : Flash) : Option Flash :=
  let s1 := { s with ACR := u32 (s.ACR &&& not32 (0xF <<< FLASH_ACR_LATENCY)) }
  let step := 30
  let ws_value := u8 (sub32 (system_clock / MEGA) 1 / step)
  let s2 := { s1 with ACR := u32 (s1.ACR ||| u32 ((ws_value &&& 0xF) <<< FLASH_ACR_LATENCY)) }
  (flash_unlock fuel s2).map fun s3 =>
    flash_lock { s3 with CR := u32 (s3.CR ||| u32 (2 <<< FLASH_CR_PSIZE)) }

/-! ## Read path -/

/-- The copy loop of `flash_read`: `while (length--) *rx_buffer++ = *flash_ptr++;`.
`rx_buffer` is the index reached in the output buffer `buf`. -/
def flash_read_loop (mem : Nat → Nat) : Nat → Nat → Nat → (Nat → Nat) → (Nat → Nat)
  | 0, _, _, buf => buf
  | length + 1, flash_ptr, rx_buffer, buf =>
    flash_read_loop mem length (flash_ptr + 1) (rx_buffer + 1)
      (Function.update buf rx_buffer (mem flash_ptr))

/-- Source function `flash_read`.  The two bounds of the flash address space come from the
missing header and are parameters.  Returns the status, the output buffer and the driver
state, which the function does not write. -/
def flash_read (FLASH_SECTOR_0_BASE_ADDR FLASH_END_ADDR : Nat) (address : Nat)
    (rx_buffer : Nat → Nat) (length : Nat) (s : Flash) : Nat × (Nat → Nat) × Flash :=
  if (!(decide (address ≥ FLASH_SECTOR_0_BASE_ADDR) && decide (address ≤ FLASH_END_ADDR)) ||
      decide (length > sub32 FLASH_END_ADDR address)) = true then
    (FLASH_FAIL, rx_buffer, s)
  else
    (FLASH_SUCCESS, flash_read_loop s.mem length address 0 rx_buffer, s)

/-! ## Program path -/

/-- The 32-bit little-endian word made of the four bytes of `data` that start at index `p`:
what `*data_ptr` reads on the Cortex-M4. -/
def load32 (data : Nat → Nat) (p : Nat) : Nat :=
  data p % 256 + 256 * (data (p + 1) % 256) + 65536 * (data (p + 2) % 256)
    + 16777216 * (data (p + 3) % 256)

/-- The store `*flash_ptr = w`: four bytes, little-endian, and one entry in the store log. -/
def store32 (s : Flash) (flash_ptr w : Nat) : Flash :=
  { s with
    mem := fun a =>
      if a = flash_ptr then w % 256
      else if a = flash_ptr + 1 then w / 256 % 256
      else if a = flash_ptr + 2 then w / 65536 % 256
      else if a = flash_ptr + 3 then w / 16777216 % 256
      else s.mem a
    stores := s.stores ++ [(flash_ptr, w)] }

/-- The copy loop of `flash_write`: `while (no_bytes--) *flash_ptr++ = *data_ptr++;`.
`data_ptr` is the byte index reached in `data`. -/
def flash_write_loop (data : Nat → Nat) : Nat → Nat → Nat → Flash → Flash
  | 0, _, _, s => s
  | no_bytes + 1, data_ptr, flash_ptr, s =>
    flash_write_loop data no_bytes (data_ptr + 4) (flash_ptr + 4)
      (store32 s flash_ptr (load32 data data_ptr))

/-- The part of `flash_write` between the unlock and the completion wait: program mode on,
then the word copy. -/
def flash_write_body (address : Nat) (data : Nat → Nat) (length : Nat) (s1 : Flash) : Flash :=
  let s2 := { s1 with CR := u32 (s1.CR ||| u32 (1 <<< FLASH_CR_PG)) }
  let no_bytes := if length % 4 = 0 then length / 4 else length / 4 + 1
  flash_write_loop data no_bytes 0 address s2

/-- Source function `flash_write`: unlock, body, wait until idle, lock. -/
def flash_write (fuel : Nat) (address : Nat) (data : Nat → Nat) (length : Nat) (s : Flash) :
    Option Flash :=
  (flash_unlock fuel s).bind fun s1 =>
    (wait_for_not_busy fuel (flash_write_body address data length s1)).map flash_lock

/-! ## Erase path -/

/-- The part of `flash_sector_erase` between the unlock and the completion wait. -/
def flash_sector_erase_body (sector_number : Nat) (s1 : Flash) : Flash :=
  let s2 := { s1 with CR := u32 (s1.CR &&& not32 0x7F) }
  let s3 := { s2 with CR := u32 (s2.CR ||| u32 ((sector_number &&& 0xF) <<< FLASH_CR_SNB)) }
  let s4 := { s3 with CR := u32 (s3.CR ||| u32 (1 <<< FLASH_CR_SER)) }
  { s4 with CR := u32 (s4.CR ||| u32 (1 <<< FLASH_CR_STRT)) }

/-- Source function `flash_sector_erase`: unlock, body, wait until idle, lock. -/
def flash_sector_erase (fuel : Nat) (sector_number : Nat) (s : Flash) : Option Flash :=
  (flash_unlock fuel s).bind fun s1 =>
    (wait_for_not_busy fuel (flash_sector_erase_body sector_number s1)).map flash_lock

/-- The part of `flash_mass_erase` between the unlock and the completion wait. -/
def flash_mass_erase_body (s1 : Flash) : Flash :=
  let s2 := { s1 with CR := u32 (s1.CR &&& not32 0x7F) }
  let s3 := { s2 with CR := u32 (s2.CR ||| u32 (1 <<< FLASH_CR_MER)) }
  { s3 with CR := u32 (s3.CR ||| u32 (1 <<< FLASH_CR_STRT)) }

/-- Source function `flash_mass_erase`: unlock, body, wait until idle, lock. -/
def flash_mass_erase (fuel : Nat) (s : Flash) : Option Flash :=
  (flash_unlock fuel s).bind fun s1 =>
    (wait_for_not_busy fuel (flash_mass_erase_body s1)).map flash_lock

/-! ## Protection manager -/

/-- The body of the `for` loop of `flash_get_protection_level` for sector `i`. -/
def prot_level_of (pcrop n_wrp i : Nat) : Nat :=
  if pcrop = FLASH_PROT_MODE_ON ∧ n_wrp &&& (1 <<< i) ≠ 0 then FLASH_PROT_READ_WRITE
  else if pcrop = FLASH_PROT_MODE_OFF ∧ ¬ (n_wrp &&& (1 <<< i) ≠ 0) then FLASH_PROT_WRITE
  else FLASH_PROT_NONE

/-- The `for` loop of `flash_get_protection_level`, with `n` iterations left from index `i`. -/
def flash_get_protection_level_loop (pcrop n_wrp : Nat) : Nat → Nat → (Nat → Nat) → (Nat → Nat)
  | 0, _, prot_level => prot_level
  | n + 1, i, prot_level =>
    flash_get_protection_level_loop pcrop n_wrp n (i + 1)
      (Function.update prot_level i (prot_level_of pcrop n_wrp i))

/-- Source function `flash_get_protection_level`: fills the array of the caller, `prot_level[8]`. -/
def flash_get_protection_level (prot_level : Nat → Nat) (s : Flash) : Nat → Nat :=
  let pcrop := u8 (s.OPTCR >>> FLASH_OPTCR_SPRMOD &&& 1)
  let n_wrp := u8 (s.OPTCR >>> FLASH_OPTCR_NWRP &&& 0xFF)
  flash_get_protection_level_loop pcrop n_wrp 8 0 prot_level

/-- The part of `flash_set_protection_level` between the option unlock and the completion
wait: the branch on the requested level, then the option-apply bit. -/
def flash_set_protection_level_body (prot_level sectors : Nat) (s1 : Flash) : Flash :=
  let s2 :=
    if prot_level = FLASH_PROT_READ_WRITE then
      let a := { s1 with OPTCR := u32 (s1.OPTCR ||| u32 (1 <<< FLASH_OPTCR_SPRMOD)) }
      let b := { a with OPTCR := u32 (a.OPTCR &&& not32 (0xFF <<< FLASH_OPTCR_NWRP)) }
      { b with OPTCR := u32 (b.OPTCR ||| u32 (sectors <<< FLASH_OPTCR_NWRP)) }
    else if prot_level = FLASH_PROT_WRITE then
      let a := { s1 with OPTCR := u32 (s1.OPTCR &&& not32 (1 <<< FLASH_OPTCR_SPRMOD)) }
      let b := { a with OPTCR := u32 (a.OPTCR ||| u32 (0xFF <<< FLASH_OPTCR_NWRP)) }
      { b with OPTCR := u32 (b.OPTCR &&& not32 (sectors <<< FLASH_OPTCR_NWRP)) }
    else
      let a := { s1 with OPTCR := u32 (s1.OPTCR &&& not32 (1 <<< FLASH_OPTCR_SPRMOD)) }
      { a with OPTCR := u32 (a.OPTCR ||| u32 (sectors <<< FLASH_OPTCR_NWRP)) }
  { s2 with OPTCR := u32 (s2.OPTCR ||| u32 (1 <<< FLASH_OPTCR_OPTSTRT)) }

/-- Source function `flash_set_protection_level`: option unlock, body, wait until idle,
option lock. -/
def flash_set_protection_level (fuel : Nat) (prot_level sectors : Nat) (s : Flash) :
    Option Flash :=
  (flash_opt_unlock fuel s).bind fun s1 =>
    (wait_for_not_busy fuel (flash_set_protection_level_body prot_level sectors s1)).map
      flash_opt_lock

/-! ## GPIO port: `drivers/src/stm32f446xx_gpio.c` -/

/-- Modelled from the spec: `stm32f446xx_gpio.h` is missing; the value that stands for a high
pin. -/
def GPIO_PIN_HIGH : Nat := 1

/-- The registers of one GPIO port (`gpio_regdef_t`) that the pin and port functions use. -/
structure Gpio where
  /-- Mode register. -/
  MODER : Nat
  /-- Output type register. -/
  OTYPER : Nat
  /-- Output speed register. -/
  OSPEEDR : Nat
  /-- Pull-up/pull-down register. -/
  PUPDR : Nat
  /-- Input data register. -/
  IDR : Nat
  /-- Output data register. -/
  ODR : Nat

/-- Source function `gpio_write_pin`. -/
def gpio_write_pin (gpiox : Gpio) (pin_number value : Nat) : Gpio :=
  if value = GPIO_PIN_HIGH then
    { gpiox with ODR := u32 (gpiox.ODR ||| u32 (1 <<< pin_number)) }
  else
    { gpiox with ODR := u32 (gpiox.ODR &&& not32 (1 <<< pin_number)) }

/-- Source function `gpio_write_port`. -/
def gpio_write_port (gpiox : Gpio) (value : Nat) : Gpio :=
  if value = GPIO_PIN_HIGH then
    { gpiox with ODR := u32 (gpiox.ODR ||| 0xFFFF) }
  else
    { gpiox with ODR := u32 (gpiox.ODR &&& not32 0xFFFF) }

/-- Source function `gpio_toggle_pin`. -/
def gpio_toggle_pin (gpiox : Gpio) (pin_number : Nat) : Gpio :=
  { gpiox with ODR := u32 (gpiox.ODR ^^^ u32 (1 <<< pin_number)) }

/-! ## The hardware assumption under which the busy-wait ends -/

/-- The busy bit of the value returned by the `n`-th read of SR. -/
def busyAt (SR : Nat → Nat) (n : Nat) : Bool := (SR n).testBit FLASH_SR_BSY

/-- The hardware never stays busy forever: after any number of reads of SR a later read
finds the busy bit clear. -/
def EventuallyIdle (SR : Nat → Nat) : Prop := ∀ m, ∃ n, m ≤ n ∧ busyAt SR n = false

/-! ## A concrete device state -/

/-- A status register that reads busy for the first three polls and idle from then on. -/
def sampleSR : Nat → Nat := fun n => if n < 3 then 0x10000 else 0

/-- The register block after reset (control register locked, option bytes at their factory
values), an erased flash array, and a hardware that is busy for three polls. -/
def sampleFlash : Flash :=
  { ACR := 0, KEYR := [], OPTKEYR := [], SR := sampleSR, polls := 0,
    CR := 0x80000000, OPTCR := 0x0FFFAAED, mem := fun _ => 0xFF, stores := [] }

/-- A data buffer with `data[i] = i + 1`. -/
def sampleData : Nat → Nat := fun i => i + 1

/-- The reset state with the program-size field holding 1 (x16) instead of its reset value. -/
def samplePsizeFlash : Flash := { sampleFlash with CR := 0x80000100 }

/-- A state whose control register is unlocked and holds the program size x32. -/
def sampleUnlockedFlash : Flash := { sampleFlash with CR := 0x00000200 }

/-- A GPIO port whose output data register holds a pattern in both halves. -/
def sampleGpio : Gpio :=
  { MODER := 0, OTYPER := 0, OSPEEDR := 0, PUPDR := 0, IDR := 0, ODR := 0xABCD00F0 }

/-! ## The sample hardware becomes idle -/

theorem sampleSR_eventuallyIdle : EventuallyIdle sampleSR := by
  intro m
  refine ⟨m + 3, by omega, ?_⟩
  have h : ¬ (m + 3 < 3) := by omega
  simp [busyAt, sampleSR, h]

/-! ## Bit-level lemmas -/

theorem testBit_u32 (x i : Nat) : (u32 x).testBit i = (decide (i < 32) && x.testBit i) := by
  unfold u32; exact Nat.testBit_mod_two_pow x 32 i

theorem testBit_u8 (x i : Nat) : (u8 x).testBit i = (decide (i < 8) && x.testBit i) := by
  unfold u8; exact Nat.testBit_mod_two_pow x 8 i

theorem testBit_not32 (x i : Nat) : (not32 x).testBit i = (decide (i < 32) && !x.testBit i) := by
  unfold not32
  rw [Nat.testBit_xor, Nat.testBit_two_pow_sub_one, Nat.testBit_mod_two_pow]
  by_cases h : i < 32 <;> simp [h]

theorem testBit_one_shiftLeft (n i : Nat) : (1 <<< n).testBit i = decide (n = i) := by
  rw [Nat.one_shiftLeft, Nat.testBit_two_pow]

theorem testBit_field (r pos width i : Nat) :
    (field r pos width).testBit i = (decide (i < width) && r.testBit (pos + i)) := by
  unfold field
  rw [Nat.testBit_mod_two_pow, Nat.testBit_shiftRight]

theorem and_one_shiftLeft_ne_zero (x n : Nat) : x &&& (1 <<< n) ≠ 0 ↔ x.testBit n = true := by
  constructor
  · intro h
    by_contra hb
    apply h
    apply Nat.eq_of_testBit_eq
    intro i
    rw [Nat.testBit_and, testBit_one_shiftLeft, Nat.zero_testBit]
    by_cases hi : n = i
    · subst hi; simp [hb]
    · simp [hi]
  · intro hb h
    have := congrArg (fun y => Nat.testBit y n) h
    simp [testBit_one_shiftLeft, hb] at this


/-! ## Read path -/

theorem sub32_of_le (a b : Nat) (ha : a < 2 ^ 32) (hb : b ≤ a) : sub32 a b = a - b := by
  unfold sub32
  have hb2 : b < 2 ^ 32 := lt_of_le_of_lt hb ha
  rw [Nat.mod_eq_of_lt ha, Nat.mod_eq_of_lt hb2]
  omega

theorem flash_read_loop_apply (mem : Nat → Nat) (length flash_ptr rx_buffer : Nat)
    (buf : Nat → Nat) (i : Nat) :
    flash_read_loop mem length flash_ptr rx_buffer buf i =
      if rx_buffer ≤ i ∧ i < rx_buffer + length then mem (flash_ptr + (i - rx_buffer))
      else buf i := by
  induction length generalizing flash_ptr rx_buffer buf with
  | zero =>
    have : ¬ (rx_buffer ≤ i ∧ i < rx_buffer + 0) := by omega
    rw [flash_read_loop, if_neg this]
  | succ n ih =>
    rw [flash_read_loop, ih]
    by_cases h1 : rx_buffer + 1 ≤ i ∧ i < rx_buffer + 1 + n
    · have h2 : rx_buffer ≤ i ∧ i < rx_buffer + (n + 1) := by omega
      have h3 : flash_ptr + 1 + (i - (rx_buffer + 1)) = flash_ptr + (i - rx_buffer) := by omega
      rw [if_pos h1, if_pos h2, h3]
    · rw [if_neg h1]
      by_cases h4 : i = rx_buffer
      · subst h4
        have h2 : i ≤ i ∧ i < i + (n + 1) := by omega
        rw [if_pos h2]
        simp
      · have h2 : ¬ (rx_buffer ≤ i ∧ i < rx_buffer + (n + 1)) := by omega
        rw [if_neg h2, Function.update_noteq h4]

/-- C1: a read whose start lies below the base or above the end of the flash address space,
or whose range (start + length, as an unbounded sum) runs past the end, returns `FLASH_FAIL`
and leaves the output buffer (and the driver state) as it was. -/
theorem flash_read_out_of_range (FLASH_SECTOR_0_BASE_ADDR FLASH_END_ADDR address length : Nat)
    (rx_buffer : Nat → Nat) (s : Flash)
    (hend : FLASH_END_ADDR < 2 ^ 32)
    (h : address < FLASH_SECTOR_0_BASE_ADDR ∨ address > FLASH_END_ADDR ∨
      address + length > FLASH_END_ADDR) :
    flash_read FLASH_SECTOR_0_BASE_ADDR FLASH_END_ADDR address rx_buffer length s =
      (FLASH_FAIL, rx_buffer, s) := by
  unfold flash_read
  rw [if_pos]
  by_cases h1 : address ≥ FLASH_SECTOR_0_BASE_ADDR ∧ address ≤ FLASH_END_ADDR
  · have h2 : length > sub32 FLASH_END_ADDR address := by
      rw [sub32_of_le _ _ hend h1.2]; omega
    simp [h2]
  · have h3 : ¬ (FLASH_SECTOR_0_BASE_ADDR ≤ address ∧ address ≤ FLASH_END_ADDR) := h1
    simp only [ge_iff_le, Bool.or_eq_true, Bool.not_eq_true', Bool.and_eq_false_iff,
      decide_eq_false_iff_not, decide_eq_true_eq]
    left
    by_cases h4 : FLASH_SECTOR_0_BASE_ADDR ≤ address
    · right; intro h5; exact h3 ⟨h4, h5⟩
    · left; exact h4

/-- C1 at a concrete call: a start inside the flash with a length whose 32-bit sum with the
start wraps around to an address inside the flash. -/
theorem flash_read_out_of_range_witness :
    (0x0807FFF0 + 0xFFFFFFFF) % 2 ^ 32 ≤ 0x0807FFFF ∧
    flash_read 0x08000000 0x0807FFFF 0x0807FFF0 sampleData 0xFFFFFFFF sampleFlash =
      (FLASH_FAIL, sampleData, sampleFlash) :=
  ⟨by norm_num,
   flash_read_out_of_range 0x08000000 0x0807FFFF 0x0807FFF0 0xFFFFFFFF sampleData sampleFlash
    (by norm_num) (Or.inr (Or.inr (by norm_num)))⟩

/-- C2: a read that lies inside the flash address space returns `FLASH_SUCCESS`; afterwards
byte `i` of the output buffer is the flash byte at `address + i` for every `i < length`, the
buffer bytes from index `length` on are as before, and the flash contents are as before. -/
theorem flash_read_in_range (FLASH_SECTOR_0_BASE_ADDR FLASH_END_ADDR address length : Nat)
    (rx_buffer : Nat → Nat) (s : Flash)
    (hend : FLASH_END_ADDR < 2 ^ 32)
    (hbase : address ≥ FLASH_SECTOR_0_BASE_ADDR) (hlen : address + length ≤ FLASH_END_ADDR) :
    (flash_read FLASH_SECTOR_0_BASE_ADDR FLASH_END_ADDR address rx_buffer length s).1
        = FLASH_SUCCESS ∧
    (∀ i, i < length →
      (flash_read FLASH_SECTOR_0_BASE_ADDR FLASH_END_ADDR address rx_buffer length s).2.1 i
        = s.mem (address + i)) ∧
    (∀ i, length ≤ i →
      (flash_read FLASH_SECTOR_0_BASE_ADDR FLASH_END_ADDR address rx_buffer length s).2.1 i
        = rx_buffer i) ∧
    (flash_read FLASH_SECTOR_0_BASE_ADDR FLASH_END_ADDR address rx_buffer length s).2.2
        = s := by
  have hle : address ≤ FLASH_END_ADDR := by omega
  have hsub : ¬ (length > sub32 FLASH_END_ADDR address) := by
    rw [sub32_of_le _ _ hend hle]; omega
  have hcond : ¬ ((!(decide (address ≥ FLASH_SECTOR_0_BASE_ADDR) &&
      decide (address ≤ FLASH_END_ADDR)) ||
      decide (length > sub32 FLASH_END_ADDR address)) = true) := by
    simp [hbase, hle, hsub]
  unfold flash_read
  rw [if_neg hcond]
  refine ⟨rfl, ?_, ?_, rfl⟩
  · intro i hi
    show flash_read_loop s.mem length address 0 rx_buffer i = _
    rw [flash_read_loop_apply]
    have : 0 ≤ i ∧ i < 0 + length := by omega
    rw [if_pos this]; simp
  · intro i hi
    show flash_read_loop s.mem length address 0 rx_buffer i = _
    rw [flash_read_loop_apply]
    have : ¬ (0 ≤ i ∧ i < 0 + length) := by omega
    rw [if_neg this]


/-- C2 at a concrete call: the last four bytes of the flash address space. -/
theorem flash_read_in_range_witness :
    (flash_read 0x08000000 0x0807FFFF 0x0807FFFB sampleData 4 sampleFlash).1
        = FLASH_SUCCESS ∧
    (∀ i, i < 4 →
      (flash_read 0x08000000 0x0807FFFF 0x0807FFFB sampleData 4 sampleFlash).2.1 i
        = sampleFlash.mem (0x0807FFFB + i)) ∧
    (∀ i, 4 ≤ i →
      (flash_read 0x08000000 0x0807FFFF 0x0807FFFB sampleData 4 sampleFlash).2.1 i
        = sampleData i) ∧
    (flash_read 0x08000000 0x0807FFFF 0x0807FFFB sampleData 4 sampleFlash).2.2
        = sampleFlash :=
  flash_read_in_range 0x08000000 0x0807FFFF 0x0807FFFB 4 sampleData sampleFlash
    (by norm_num) (by norm_num) (by norm_num)

/-! ## Protection manager: reading the levels -/

theorem flash_get_protection_level_loop_apply (pcrop n_wrp n i : Nat) (prot_level : Nat → Nat)
    (j : Nat) :
    flash_get_protection_level_loop pcrop n_wrp n i prot_level j =
      if i ≤ j ∧ j < i + n then prot_level_of pcrop n_wrp j else prot_level j := by
  induction n generalizing i prot_level with
  | zero =>
    have : ¬ (i ≤ j ∧ j < i + 0) := by omega
    rw [flash_get_protection_level_loop, if_neg this]
  | succ n ih =>
    rw [flash_get_protection_level_loop, ih]
    by_cases h1 : i + 1 ≤ j ∧ j < i + 1 + n
    · have h2 : i ≤ j ∧ j < i + (n + 1) := by omega
      rw [if_pos h1, if_pos h2]
    · rw [if_neg h1]
      by_cases h4 : j = i
      · subst h4
        have h2 : j ≤ j ∧ j < j + (n + 1) := by omega
        rw [if_pos h2]
        simp
      · have h2 : ¬ (i ≤ j ∧ j < i + (n + 1)) := by omega
        rw [if_neg h2, Function.update_noteq h4]

theorem pcrop_eq (r : Nat) :
    u8 (r >>> FLASH_OPTCR_SPRMOD &&& 1) = if r.testBit FLASH_OPTCR_SPRMOD = true then 1 else 0 := by
  unfold u8
  rw [Nat.and_one_is_mod, Nat.shiftRight_eq_div_pow, ← Nat.toNat_testBit]
  cases r.testBit FLASH_OPTCR_SPRMOD <;> simp

theorem testBit_n_wrp (r i : Nat) (hi : i < 8) :
    (u8 (r >>> FLASH_OPTCR_NWRP &&& 0xFF)).testBit i = r.testBit (FLASH_OPTCR_NWRP + i) := by
  have h255 : (0xFF : Nat) = 2 ^ 8 - 1 := by norm_num
  rw [testBit_u8, Nat.testBit_and, Nat.testBit_shiftRight, h255, Nat.testBit_two_pow_sub_one]
  simp [hi]

/-- The level that `flash_get_protection_level` reports for sector `i`, in terms of the
PCROP-mode bit and of bit `i` of the write-protection bitmap. -/
theorem flash_get_protection_level_apply (prot_level : Nat → Nat) (s : Flash) (i : Nat)
    (hi : i < 8) :
    flash_get_protection_level prot_level s i =
      if s.OPTCR.testBit FLASH_OPTCR_SPRMOD = true ∧
          s.OPTCR.testBit (FLASH_OPTCR_NWRP + i) = true then FLASH_PROT_READ_WRITE
      else if s.OPTCR.testBit FLASH_OPTCR_SPRMOD = false ∧
          s.OPTCR.testBit (FLASH_OPTCR_NWRP + i) = false then FLASH_PROT_WRITE
      else FLASH_PROT_NONE := by
  simp only [flash_get_protection_level]
  rw [flash_get_protection_level_loop_apply]
  have h0 : 0 ≤ i ∧ i < 0 + 8 := by omega
  rw [if_pos h0]
  unfold prot_level_of
  simp only [and_one_shiftLeft_ne_zero, testBit_n_wrp _ _ hi, pcrop_eq]
  unfold FLASH_PROT_MODE_ON FLASH_PROT_MODE_OFF
  cases s.OPTCR.testBit FLASH_OPTCR_SPRMOD <;>
    cases s.OPTCR.testBit (FLASH_OPTCR_NWRP + i) <;> simp

/-- C3: for every option-control register value and every sector `i` in 0..7, the level
written to `prot_level[i]` is read+write-protected iff the SPRMOD bit is 1 and bit `i` of the
nWRP bitmap is 1, write-protected iff the SPRMOD bit is 0 and bit `i` of the bitmap is 0, and
none in every other case. -/
theorem flash_get_protection_level_truth_table (prot_level : Nat → Nat) (s : Flash) (i : Nat)
    (hi : i < 8) :
    (flash_get_protection_level prot_level s i = FLASH_PROT_READ_WRITE ↔
      (s.OPTCR.testBit FLASH_OPTCR_SPRMOD = true ∧
        (field s.OPTCR FLASH_OPTCR_NWRP 8).testBit i = true)) ∧
    (flash_get_protection_level prot_level s i = FLASH_PROT_WRITE ↔
      (s.OPTCR.testBit FLASH_OPTCR_SPRMOD = false ∧
        (field s.OPTCR FLASH_OPTCR_NWRP 8).testBit i = false)) ∧
    (flash_get_protection_level prot_level s i = FLASH_PROT_NONE ↔
      (s.OPTCR.testBit FLASH_OPTCR_SPRMOD ≠ (field s.OPTCR FLASH_OPTCR_NWRP 8).testBit i)) := by
  rw [flash_get_protection_level_apply _ _ _ hi, testBit_field]
  unfold FLASH_PROT_READ_WRITE FLASH_PROT_WRITE FLASH_PROT_NONE
  cases s.OPTCR.testBit FLASH_OPTCR_SPRMOD <;>
    cases s.OPTCR.testBit (FLASH_OPTCR_NWRP + i) <;> simp [hi]


/-- C3 at a concrete register value: the factory option bytes (PCROP off, bitmap all ones)
give level none for sector 3. -/
theorem flash_get_protection_level_truth_table_witness :
    flash_get_protection_level sampleData sampleFlash 3 = FLASH_PROT_NONE ∧
    ((flash_get_protection_level sampleData sampleFlash 3 = FLASH_PROT_READ_WRITE ↔
      (sampleFlash.OPTCR.testBit FLASH_OPTCR_SPRMOD = true ∧
        (field sampleFlash.OPTCR FLASH_OPTCR_NWRP 8).testBit 3 = true)) ∧
    (flash_get_protection_level sampleData sampleFlash 3 = FLASH_PROT_WRITE ↔
      (sampleFlash.OPTCR.testBit FLASH_OPTCR_SPRMOD = false ∧
        (field sampleFlash.OPTCR FLASH_OPTCR_NWRP 8).testBit 3 = false)) ∧
    (flash_get_protection_level sampleData sampleFlash 3 = FLASH_PROT_NONE ↔
      (sampleFlash.OPTCR.testBit FLASH_OPTCR_SPRMOD ≠
        (field sampleFlash.OPTCR FLASH_OPTCR_NWRP 8).testBit 3))) :=
  ⟨by decide, flash_get_protection_level_truth_table sampleData sampleFlash 3 (by decide)⟩

/-! ## Busy-wait -/

theorem u32_and_u32_one_shiftLeft (x n : Nat) (hn : n < 32) :
    u32 (x &&& u32 (1 <<< n)) = x &&& (1 <<< n) := by
  apply Nat.eq_of_testBit_eq
  intro i
  rw [testBit_u32, Nat.testBit_and, testBit_u32, Nat.testBit_and, testBit_one_shiftLeft]
  by_cases h : n = i
  · subst h; simp [hn]
  · simp [h]

theorem flash_is_status_bit_set_busy (s : Flash) :
    (flash_is_status_bit_set FLASH_SR_BSY s).1 ≠ 0 ↔ busyAt s.SR s.polls = true := by
  unfold flash_is_status_bit_set busyAt
  simp only []
  rw [u32_and_u32_one_shiftLeft _ _ (by decide)]
  by_cases h : s.SR s.polls &&& 1 <<< FLASH_SR_BSY ≠ 0
  · rw [if_pos h]
    have h2 := (and_one_shiftLeft_ne_zero _ _).1 h
    simp [SET, h2]
  · rw [if_neg h]
    have h2 : ¬ ((s.SR s.polls).testBit FLASH_SR_BSY = true) :=
      fun hb => h ((and_one_shiftLeft_ne_zero _ _).2 hb)
    simp [RESET, h2]

/-- A busy-wait that returns has changed nothing but the number of polls. -/
theorem wait_for_not_busy_frame (fuel : Nat) (s t : Flash)
    (h : wait_for_not_busy fuel s = some t) : ∃ n, t = { s with polls := n } := by
  induction fuel generalizing s with
  | zero => simp [wait_for_not_busy] at h
  | succ f ih =>
    rw [wait_for_not_busy] at h
    by_cases hb : (flash_is_status_bit_set FLASH_SR_BSY s).1 ≠ 0
    · rw [if_pos hb] at h
      obtain ⟨n, hn⟩ := ih _ h
      exact ⟨n, by rw [hn]; rfl⟩
    · rw [if_neg hb] at h
      exact ⟨s.polls + 1, by rw [← Option.some.inj h]; rfl⟩

/-- A busy-wait returns as soon as the fuel exceeds the number of busy polls. -/
theorem wait_for_not_busy_returns_of_idle (k : Nat) (s : Flash)
    (hk : busyAt s.SR (s.polls + k) = false) (fuel : Nat) (hf : k < fuel) :
    ∃ t, wait_for_not_busy fuel s = some t := by
  induction k generalizing s fuel with
  | zero =>
    obtain ⟨f, rfl⟩ : ∃ f, fuel = f + 1 := ⟨fuel - 1, by omega⟩
    rw [wait_for_not_busy]
    have hb : ¬ ((flash_is_status_bit_set FLASH_SR_BSY s).1 ≠ 0) := by
      rw [flash_is_status_bit_set_busy]; simpa using hk
    rw [if_neg hb]
    exact ⟨_, rfl⟩
  | succ k ih =>
    obtain ⟨f, rfl⟩ : ∃ f, fuel = f + 1 := ⟨fuel - 1, by omega⟩
    rw [wait_for_not_busy]
    by_cases hb : (flash_is_status_bit_set FLASH_SR_BSY s).1 ≠ 0
    · rw [if_pos hb]
      apply ih
      · show busyAt s.SR (s.polls + 1 + k) = false
        rw [show s.polls + 1 + k = s.polls + (k + 1) by omega]
        exact hk
      · omega
    · rw [if_neg hb]
      exact ⟨_, rfl⟩

/-- Under the hardware assumption every busy-wait returns, given enough fuel. -/
theorem wait_for_not_busy_returns (s : Flash) (h : EventuallyIdle s.SR) :
    ∃ fuel0, ∀ fuel, fuel0 ≤ fuel → ∃ t, wait_for_not_busy fuel s = some t := by
  obtain ⟨n, hn, hidle⟩ := h s.polls
  refine ⟨n - s.polls + 1, fun fuel hf => ?_⟩
  apply wait_for_not_busy_returns_of_idle (n - s.polls) s _ fuel (by omega)
  rw [show s.polls + (n - s.polls) = n by omega]
  exact hidle

/-- More fuel does not change the outcome of a busy-wait that returns. -/
theorem wait_for_not_busy_mono (fuel : Nat) (s t : Flash)
    (h : wait_for_not_busy fuel s = some t) (fuel2 : Nat) (hf : fuel ≤ fuel2) :
    wait_for_not_busy fuel2 s = some t := by
  induction fuel generalizing s fuel2 with
  | zero => simp [wait_for_not_busy] at h
  | succ f ih =>
    obtain ⟨g, rfl⟩ : ∃ g, fuel2 = g + 1 := ⟨fuel2 - 1, by omega⟩
    rw [wait_for_not_busy] at h ⊢
    by_cases hb : (flash_is_status_bit_set FLASH_SR_BSY s).1 ≠ 0
    · rw [if_pos hb] at h ⊢
      exact ih _ h g (by omega)
    · rw [if_neg hb] at h ⊢
      exact h

/-- Shape of an operation made of one busy-wait followed by register writes. -/
theorem wait_then_some (post : Flash → Flash) (fuel : Nat) (s t : Flash)
    (h : (wait_for_not_busy fuel s).map post = some t) :
    ∃ n, t = post { s with polls := n } := by
  cases hw : wait_for_not_busy fuel s with
  | none => rw [hw] at h; simp at h
  | some u =>
    rw [hw] at h
    obtain ⟨n, hn⟩ := wait_for_not_busy_frame _ _ _ hw
    exact ⟨n, by rw [← Option.some.inj h, hn]⟩

/-- Shape of an operation bracketed by two busy-waits: the unlock wait, the register writes
`mid`, the completion wait, the re-lock `post`. -/
theorem wait_mid_wait_some (mid post : Flash → Flash) (fuel : Nat) (s t : Flash)
    (h : ((wait_for_not_busy fuel s).bind fun s1 =>
      (wait_for_not_busy fuel (mid s1)).map post) = some t) :
    ∃ n1 n2, t = post { mid { s with polls := n1 } with polls := n2 } := by
  cases hw : wait_for_not_busy fuel s with
  | none => rw [hw] at h; simp at h
  | some u =>
    rw [hw] at h
    obtain ⟨n1, hn1⟩ := wait_for_not_busy_frame _ _ _ hw
    obtain ⟨n2, hn2⟩ := wait_then_some post fuel (mid u) t h
    exact ⟨n1, n2, by rw [hn2, hn1]⟩

/-- An operation made of one busy-wait returns under the hardware assumption. -/
theorem wait_then_returns (post : Flash → Flash) (s : Flash) (h : EventuallyIdle s.SR) :
    ∃ fuel t, (wait_for_not_busy fuel s).map post = some t := by
  obtain ⟨f0, hf0⟩ := wait_for_not_busy_returns s h
  obtain ⟨u, hu⟩ := hf0 f0 (le_refl _)
  exact ⟨f0, post u, by rw [hu]; rfl⟩

/-- An operation bracketed by two busy-waits returns under the hardware assumption, provided
the register writes in between leave the hardware-driven status alone. -/
theorem wait_mid_wait_returns (mid post : Flash → Flash) (s : Flash)
    (hmid : ∀ u, (mid u).SR = u.SR) (h : EventuallyIdle s.SR) :
    ∃ fuel t, ((wait_for_not_busy fuel s).bind fun s1 =>
      (wait_for_not_busy fuel (mid s1)).map post) = some t := by
  obtain ⟨f1, hf1⟩ := wait_for_not_busy_returns s h
  obtain ⟨u0, hu0⟩ := hf1 f1 (le_refl _)
  obtain ⟨n, hn⟩ := wait_for_not_busy_frame _ _ _ hu0
  have h2 : EventuallyIdle (mid u0).SR := by
    rw [hmid, hn]; exact h
  obtain ⟨f2, hf2⟩ := wait_for_not_busy_returns (mid u0) h2
  obtain ⟨v, hv⟩ := hf2 (max f1 f2) (le_max_right _ _)
  refine ⟨max f1 f2, post v, ?_⟩
  rw [wait_for_not_busy_mono _ _ _ hu0 _ (le_max_left _ _)]
  show (wait_for_not_busy (max f1 f2) (mid u0)).map post = some (post v)
  rw [hv]; rfl


/-! ## Protection manager: writing the levels -/

theorem testBit_255 (i : Nat) : Nat.testBit 255 i = decide (i < 8) := by
  have h : (255 : Nat) = 2 ^ 8 - 1 := by norm_num
  rw [h, Nat.testBit_two_pow_sub_one]

theorem testBit_one (k : Nat) : Nat.testBit 1 k = decide (k = 0) := by
  have h : (1 : Nat) = 2 ^ 0 := by norm_num
  rw [h, Nat.testBit_two_pow]
  by_cases hk : k = 0
  · simp [hk]
  · have : ¬ (0 = k) := fun h0 => hk h0.symm
    simp [hk, this]

theorem flash_set_protection_level_some (fuel prot_level sectors : Nat) (s t : Flash)
    (h : flash_set_protection_level fuel prot_level sectors s = some t) :
    t.OPTCR = (flash_opt_lock (flash_set_protection_level_body prot_level sectors s)).OPTCR ∧
    t.CR = s.CR ∧ t.ACR = s.ACR ∧ t.mem = s.mem ∧ t.stores = s.stores ∧ t.KEYR = s.KEYR ∧
    t.OPTKEYR = s.OPTKEYR ++ [FLASH_OPT_KEY1] ++ [FLASH_OPT_KEY2] := by
  obtain ⟨n1, n2, ht⟩ := wait_mid_wait_some
    (flash_set_protection_level_body prot_level sectors) flash_opt_lock fuel _ t h
  subst ht
  unfold flash_opt_lock flash_set_protection_level_body
  refine ⟨?_, ?_, ?_, ?_, ?_, ?_, ?_⟩ <;> (simp only []; split_ifs <;> rfl)

theorem flash_set_protection_level_returns (prot_level sectors : Nat) (s : Flash)
    (h : EventuallyIdle s.SR) :
    ∃ fuel t, flash_set_protection_level fuel prot_level sectors s = some t := by
  refine wait_mid_wait_returns (flash_set_protection_level_body prot_level sectors)
    flash_opt_lock { s with OPTKEYR := s.OPTKEYR ++ [FLASH_OPT_KEY1] ++ [FLASH_OPT_KEY2] } ?_ h
  intro u
  unfold flash_set_protection_level_body
  simp only []
  split_ifs <;> rfl

theorem testBit_optcr_read_write (sectors : Nat) (s : Flash) (i : Nat) :
    (flash_opt_lock (flash_set_protection_level_body FLASH_PROT_READ_WRITE sectors s)).OPTCR.testBit i
      = (decide (i < 32) &&
          (decide (i = FLASH_OPTCR_OPTLOCK) || decide (i = FLASH_OPTCR_OPTSTRT) ||
           decide (i = FLASH_OPTCR_SPRMOD) ||
           (decide (FLASH_OPTCR_NWRP ≤ i) && sectors.testBit (i - FLASH_OPTCR_NWRP)) ||
           (!(decide (FLASH_OPTCR_NWRP ≤ i) && decide (i < FLASH_OPTCR_NWRP + 8))
              && s.OPTCR.testBit i))) := by
  simp only [flash_opt_lock, flash_set_protection_level_body, if_true, testBit_u32,
    Nat.testBit_or, Nat.testBit_and, testBit_not32, testBit_one_shiftLeft,
    Nat.testBit_shiftLeft, testBit_255, testBit_one]
  unfold FLASH_OPTCR_OPTLOCK FLASH_OPTCR_OPTSTRT FLASH_OPTCR_SPRMOD FLASH_OPTCR_NWRP
  cases s.OPTCR.testBit i <;> cases sectors.testBit (i - 16) <;>
    rw [Bool.eq_iff_iff] <;>
    simp only [Bool.and_eq_true, Bool.or_eq_true, Bool.not_eq_true',
      decide_eq_true_eq, decide_eq_false_iff_not, Bool.true_and, Bool.and_true, Bool.false_and,
      Bool.and_false, Bool.or_false, Bool.false_or, Bool.true_or, Bool.or_true, Bool.not_and,
      Bool.false_eq_true, and_false, false_and, or_false, false_or, and_true, true_and,
      or_true, true_or, ge_iff_le, iff_false, iff_true, false_iff, true_iff] <;>
    omega

theorem testBit_optcr_write (sectors : Nat) (s : Flash) (i : Nat) :
    (flash_opt_lock (flash_set_protection_level_body FLASH_PROT_WRITE sectors s)).OPTCR.testBit i
      = (decide (i < 32) &&
          (decide (i = FLASH_OPTCR_OPTLOCK) || decide (i = FLASH_OPTCR_OPTSTRT) ||
           (!(decide (FLASH_OPTCR_NWRP ≤ i) && sectors.testBit (i - FLASH_OPTCR_NWRP)) &&
            ((decide (FLASH_OPTCR_NWRP ≤ i) && decide (i < FLASH_OPTCR_NWRP + 8)) ||
             (!decide (i = FLASH_OPTCR_SPRMOD) && s.OPTCR.testBit i))))) := by
  have hne : ¬ (FLASH_PROT_WRITE = FLASH_PROT_READ_WRITE) := by decide
  simp only [flash_opt_lock, flash_set_protection_level_body, if_neg hne, if_true, testBit_u32,
    Nat.testBit_or, Nat.testBit_and, testBit_not32, testBit_one_shiftLeft,
    Nat.testBit_shiftLeft, testBit_255, testBit_one]
  unfold FLASH_OPTCR_OPTLOCK FLASH_OPTCR_OPTSTRT FLASH_OPTCR_SPRMOD FLASH_OPTCR_NWRP
  cases s.OPTCR.testBit i <;> cases sectors.testBit (i - 16) <;>
    rw [Bool.eq_iff_iff] <;>
    simp only [Bool.and_eq_true, Bool.or_eq_true, Bool.not_eq_true',
      decide_eq_true_eq, decide_eq_false_iff_not, Bool.true_and, Bool.and_true, Bool.false_and,
      Bool.and_false, Bool.or_false, Bool.false_or, Bool.true_or, Bool.or_true, Bool.not_and,
      Bool.false_eq_true, and_false, false_and, or_false, false_or, and_true, true_and,
      or_true, true_or, ge_iff_le, iff_false, iff_true, false_iff, true_iff] <;>
    omega

theorem testBit_optcr_none (prot_level sectors : Nat) (s : Flash) (i : Nat)
    (h1 : prot_level ≠ FLASH_PROT_READ_WRITE) (h2 : prot_level ≠ FLASH_PROT_WRITE) :
    (flash_opt_lock (flash_set_protection_level_body prot_level sectors s)).OPTCR.testBit i
      = (decide (i < 32) &&
          (decide (i = FLASH_OPTCR_OPTLOCK) || decide (i = FLASH_OPTCR_OPTSTRT) ||
           (decide (FLASH_OPTCR_NWRP ≤ i) && sectors.testBit (i - FLASH_OPTCR_NWRP)) ||
           (!decide (i = FLASH_OPTCR_SPRMOD) && s.OPTCR.testBit i))) := by
  simp only [flash_opt_lock, flash_set_protection_level_body, if_neg h1, if_neg h2, testBit_u32,
    Nat.testBit_or, Nat.testBit_and, testBit_not32, testBit_one_shiftLeft,
    Nat.testBit_shiftLeft, testBit_255, testBit_one]
  unfold FLASH_OPTCR_OPTLOCK FLASH_OPTCR_OPTSTRT FLASH_OPTCR_SPRMOD FLASH_OPTCR_NWRP
  cases s.OPTCR.testBit i <;> cases sectors.testBit (i - 16) <;>
    rw [Bool.eq_iff_iff] <;>
    simp only [Bool.and_eq_true, Bool.or_eq_true, Bool.not_eq_true',
      decide_eq_true_eq, decide_eq_false_iff_not, Bool.true_and, Bool.and_true, Bool.false_and,
      Bool.and_false, Bool.or_false, Bool.false_or, Bool.true_or, Bool.or_true, Bool.not_and,
      Bool.false_eq_true, and_false, false_and, or_false, false_or, and_true, true_and,
      or_true, true_or, ge_iff_le, iff_false, iff_true, false_iff, true_iff] <;>
    omega

/-- C4: for every prior option-control register value and every sector mask, setting the level
read+write-protected for `sectors` returns (the hardware becoming idle), and the levels read
back afterwards are read+write-protected for the sectors whose bit is set in the mask and none
for the others. -/
theorem set_read_write_then_get (sectors : Nat) (prot_level : Nat → Nat) (s : Flash)
    (hidle : EventuallyIdle s.SR) :
    (∃ fuel t, flash_set_protection_level fuel FLASH_PROT_READ_WRITE sectors s = some t) ∧
    ∀ fuel t, flash_set_protection_level fuel FLASH_PROT_READ_WRITE sectors s = some t →
      ∀ i, i < 8 → flash_get_protection_level prot_level t i =
        if sectors.testBit i = true then FLASH_PROT_READ_WRITE else FLASH_PROT_NONE := by
  refine ⟨flash_set_protection_level_returns _ _ s hidle, ?_⟩
  intro fuel t ht i hi
  obtain ⟨hopt, -⟩ := flash_set_protection_level_some _ _ _ _ _ ht
  rw [flash_get_protection_level_apply _ _ _ hi, hopt, testBit_optcr_read_write,
    testBit_optcr_read_write]
  unfold FLASH_OPTCR_OPTLOCK FLASH_OPTCR_OPTSTRT FLASH_OPTCR_SPRMOD FLASH_OPTCR_NWRP
  have e : 16 + i - 16 = i := by omega
  have h1 : 16 + i < 32 := by omega
  have h2 : ¬ (16 + i = 31) := by omega
  have h3 : 16 + i < 16 + 8 := by omega
  have h4 : ¬ (16 + i = 0) := by omega
  have h5 : ¬ (16 + i = 1) := by omega
  rw [e]
  cases sectors.testBit i <;> simp [h1, h2, h3, h4, h5]

/-- C4 at a concrete call: sectors 0 and 2 from the factory option bytes. -/
theorem set_read_write_then_get_witness :
    EventuallyIdle sampleFlash.SR ∧
    ((∃ fuel t, flash_set_protection_level fuel FLASH_PROT_READ_WRITE 5 sampleFlash = some t) ∧
    ∀ fuel t, flash_set_protection_level fuel FLASH_PROT_READ_WRITE 5 sampleFlash = some t →
      ∀ i, i < 8 → flash_get_protection_level sampleData t i =
        if Nat.testBit 5 i = true then FLASH_PROT_READ_WRITE else FLASH_PROT_NONE) :=
  ⟨sampleSR_eventuallyIdle,
   set_read_write_then_get 5 sampleData sampleFlash sampleSR_eventuallyIdle⟩

/-- C5: for every prior option-control register value and every sector mask, setting the level
write-protected for `sectors` returns (the hardware becoming idle), and the levels read back
afterwards are write-protected for the sectors whose bit is set in the mask and none for the
others, whatever their protection was before. -/
theorem set_write_then_get (sectors : Nat) (prot_level : Nat → Nat) (s : Flash)
    (hidle : EventuallyIdle s.SR) :
    (∃ fuel t, flash_set_protection_level fuel FLASH_PROT_WRITE sectors s = some t) ∧
    ∀ fuel t, flash_set_protection_level fuel FLASH_PROT_WRITE sectors s = some t →
      ∀ i, i < 8 → flash_get_protection_level prot_level t i =
        if sectors.testBit i = true then FLASH_PROT_WRITE else FLASH_PROT_NONE := by
  refine ⟨flash_set_protection_level_returns _ _ s hidle, ?_⟩
  intro fuel t ht i hi
  obtain ⟨hopt, -⟩ := flash_set_protection_level_some _ _ _ _ _ ht
  rw [flash_get_protection_level_apply _ _ _ hi, hopt, testBit_optcr_write,
    testBit_optcr_write]
  unfold FLASH_OPTCR_OPTLOCK FLASH_OPTCR_OPTSTRT FLASH_OPTCR_SPRMOD FLASH_OPTCR_NWRP
  have e : 16 + i - 16 = i := by omega
  have h1 : 16 + i < 32 := by omega
  have h2 : ¬ (16 + i = 0) := by omega
  have h3 : ¬ (16 + i = 1) := by omega
  have h4 : 16 + i < 16 + 8 := by omega
  rw [e]
  cases sectors.testBit i <;> simp [h1, h2, h3, h4]

/-- C5 at a concrete call: sectors 0 and 2 from the factory option bytes. -/
theorem set_write_then_get_witness :
    EventuallyIdle sampleFlash.SR ∧
    ((∃ fuel t, flash_set_protection_level fuel FLASH_PROT_WRITE 5 sampleFlash = some t) ∧
    ∀ fuel t, flash_set_protection_level fuel FLASH_PROT_WRITE 5 sampleFlash = some t →
      ∀ i, i < 8 → flash_get_protection_level sampleData t i =
        if Nat.testBit 5 i = true then FLASH_PROT_WRITE else FLASH_PROT_NONE) :=
  ⟨sampleSR_eventuallyIdle,
   set_write_then_get 5 sampleData sampleFlash sampleSR_eventuallyIdle⟩

/-- C9: for every prior option-control register value with bitmap `b` and every 8-bit mask,
setting a level that is neither read+write-protected nor write-protected returns (the hardware
becoming idle) with the SPRMOD bit cleared and the nWRP bitmap equal to `b ||| sectors`. -/
theorem set_none_bitmap (prot_level sectors : Nat) (s : Flash)
    (h1 : prot_level ≠ FLASH_PROT_READ_WRITE) (h2 : prot_level ≠ FLASH_PROT_WRITE)
    (hs : sectors < 256) (hidle : EventuallyIdle s.SR) :
    (∃ fuel t, flash_set_protection_level fuel prot_level sectors s = some t) ∧
    ∀ fuel t, flash_set_protection_level fuel prot_level sectors s = some t →
      t.OPTCR.testBit FLASH_OPTCR_SPRMOD = false ∧
      field t.OPTCR FLASH_OPTCR_NWRP 8 = field s.OPTCR FLASH_OPTCR_NWRP 8 ||| sectors := by
  refine ⟨flash_set_protection_level_returns _ _ s hidle, ?_⟩
  intro fuel t ht
  obtain ⟨hopt, -⟩ := flash_set_protection_level_some _ _ _ _ _ ht
  rw [hopt]
  constructor
  · rw [testBit_optcr_none _ _ _ _ h1 h2]
    unfold FLASH_OPTCR_OPTLOCK FLASH_OPTCR_OPTSTRT FLASH_OPTCR_SPRMOD FLASH_OPTCR_NWRP
    have h3 : sectors.testBit (31 - 16) = false :=
      Nat.testBit_lt_two_pow (lt_of_lt_of_le hs (by norm_num))
    simp [h3]
  · apply Nat.eq_of_testBit_eq
    intro i
    rw [testBit_field, Nat.testBit_or, testBit_field, testBit_optcr_none _ _ _ _ h1 h2]
    unfold FLASH_OPTCR_OPTLOCK FLASH_OPTCR_OPTSTRT FLASH_OPTCR_SPRMOD FLASH_OPTCR_NWRP
    have e : 16 + i - 16 = i := by omega
    rw [e]
    by_cases hi : i < 8
    · have h3 : 16 + i < 32 := by omega
      have h4 : ¬ (16 + i = 0) := by omega
      have h5 : ¬ (16 + i = 1) := by omega
      have h6 : ¬ (16 + i = 31) := by omega
      cases sectors.testBit i <;> simp [hi, h3, h4, h5, h6]
    · have h8 : (2 : Nat) ^ 8 ≤ 2 ^ i := Nat.pow_le_pow_right (by norm_num) (by omega)
      have h3 : sectors.testBit i = false :=
        Nat.testBit_lt_two_pow (lt_of_lt_of_le hs h8)
      simp [hi, h3]

/-- C9 at a concrete call: level none for sectors 0 and 2 from the factory option bytes. -/
theorem set_none_bitmap_witness :
    (FLASH_PROT_NONE ≠ FLASH_PROT_READ_WRITE ∧ FLASH_PROT_NONE ≠ FLASH_PROT_WRITE ∧
      5 < 256 ∧ EventuallyIdle sampleFlash.SR) ∧
    ((∃ fuel t, flash_set_protection_level fuel FLASH_PROT_NONE 5 sampleFlash = some t) ∧
    ∀ fuel t, flash_set_protection_level fuel FLASH_PROT_NONE 5 sampleFlash = some t →
      t.OPTCR.testBit FLASH_OPTCR_SPRMOD = false ∧
      field t.OPTCR FLASH_OPTCR_NWRP 8 = field sampleFlash.OPTCR FLASH_OPTCR_NWRP 8 ||| 5) :=
  ⟨⟨by decide, by decide, by decide, sampleSR_eventuallyIdle⟩,
   set_none_bitmap FLASH_PROT_NONE 5 sampleFlash (by decide) (by decide) (by decide)
    sampleSR_eventuallyIdle⟩

/-! ## Timing calibrator -/

theorem testBit_15 (i : Nat) : Nat.testBit 15 i = decide (i < 4) := by
  have h : (15 : Nat) = 2 ^ 4 - 1 := by norm_num
  rw [h, Nat.testBit_two_pow_sub_one]

/-- What `flash_init` leaves in the registers when it returns. -/
theorem flash_init_some (fuel system_clock : Nat) (s t : Flash)
    (h : flash_init fuel system_clock s = some t) :
    t.ACR = u32 (u32 (s.ACR &&& not32 (0xF <<< FLASH_ACR_LATENCY)) |||
      u32 ((u8 (sub32 (system_clock / MEGA) 1 / 30) &&& 0xF) <<< FLASH_ACR_LATENCY)) ∧
    t.CR = u32 (u32 (s.CR ||| u32 (2 <<< FLASH_CR_PSIZE)) ||| u32 (1 <<< FLASH_CR_LOCK)) ∧
    t.OPTCR = s.OPTCR ∧ t.mem = s.mem ∧ t.stores = s.stores ∧
    t.KEYR = s.KEYR ++ [FLASH_KEY1] ++ [FLASH_KEY2] ∧ t.OPTKEYR = s.OPTKEYR := by
  obtain ⟨n, ht⟩ := wait_then_some _ fuel _ t h
  subst ht
  exact ⟨rfl, rfl, rfl, rfl, rfl, rfl, rfl⟩

theorem flash_init_returns (system_clock : Nat) (s : Flash) (h : EventuallyIdle s.SR) :
    ∃ fuel t, flash_init fuel system_clock s = some t :=
  wait_then_returns _ _ h

/-- The LATENCY field after the clear-then-set pair of writes of `flash_init`. -/
theorem latency_after_writes (r w : Nat) :
    field (u32 (u32 (r &&& not32 (0xF <<< FLASH_ACR_LATENCY)) |||
      u32 ((w &&& 0xF) <<< FLASH_ACR_LATENCY))) FLASH_ACR_LATENCY 4 = w % 2 ^ 4 := by
  apply Nat.eq_of_testBit_eq
  intro i
  simp only [testBit_field, testBit_u32, Nat.testBit_or, Nat.testBit_and, testBit_not32,
    Nat.testBit_shiftLeft, testBit_15, Nat.testBit_mod_two_pow]
  unfold FLASH_ACR_LATENCY
  have e : 0 + i - 0 = i := by omega
  have e2 : 0 + i = i := by omega
  rw [e, e2]
  cases r.testBit i <;> cases w.testBit i <;>
    rw [Bool.eq_iff_iff] <;>
    simp only [Bool.and_eq_true, Bool.or_eq_true, Bool.not_eq_true',
      decide_eq_true_eq, decide_eq_false_iff_not, Bool.true_and, Bool.and_true, Bool.false_and,
      Bool.and_false, Bool.or_false, Bool.false_or, Bool.true_or, Bool.or_true, Bool.not_and,
      Bool.false_eq_true, and_false, false_and, or_false, false_or, and_true, true_and,
      or_true, true_or, ge_iff_le, iff_false, iff_true, false_iff, true_iff] <;>
    omega

/-- C6, the code at the inputs where the claim fails: for every core clock frequency below
1 MHz (0 included) `flash_init` returns with the LATENCY field equal to 8, not 0, because
`system_clock / MEGA - 1` wraps around to `0xFFFFFFFF`. -/
theorem flash_init_latency_below_one_mhz (system_clock : Nat) (s : Flash)
    (hclk : system_clock < MEGA) (hidle : EventuallyIdle s.SR) :
    (∃ fuel t, flash_init fuel system_clock s = some t) ∧
    ∀ fuel t, flash_init fuel system_clock s = some t →
      field t.ACR FLASH_ACR_LATENCY 4 = 8 := by
  refine ⟨flash_init_returns _ s hidle, ?_⟩
  intro fuel t ht
  obtain ⟨hacr, -⟩ := flash_init_some _ _ _ _ ht
  rw [hacr, latency_after_writes, Nat.div_eq_of_lt hclk]
  decide

/-- C6, at the failing input: a core clock of 0 Hz gives LATENCY 8. -/
theorem flash_init_latency_below_one_mhz_witness :
    (0 < MEGA ∧ EventuallyIdle sampleFlash.SR) ∧
    ((∃ fuel t, flash_init fuel 0 sampleFlash = some t) ∧
     ∀ fuel t, flash_init fuel 0 sampleFlash = some t →
      field t.ACR FLASH_ACR_LATENCY 4 = 8) :=
  ⟨⟨by decide, sampleSR_eventuallyIdle⟩,
   flash_init_latency_below_one_mhz 0 sampleFlash (by decide) sampleSR_eventuallyIdle⟩

/-! ## Program path -/

/-- The copy loop touches the flash array and the store log only. -/
theorem flash_write_loop_frame (data : Nat → Nat) (n data_ptr flash_ptr : Nat) (s : Flash) :
    (flash_write_loop data n data_ptr flash_ptr s).CR = s.CR ∧
    (flash_write_loop data n data_ptr flash_ptr s).SR = s.SR ∧
    (flash_write_loop data n data_ptr flash_ptr s).polls = s.polls ∧
    (flash_write_loop data n data_ptr flash_ptr s).ACR = s.ACR ∧
    (flash_write_loop data n data_ptr flash_ptr s).OPTCR = s.OPTCR ∧
    (flash_write_loop data n data_ptr flash_ptr s).KEYR = s.KEYR ∧
    (flash_write_loop data n data_ptr flash_ptr s).OPTKEYR = s.OPTKEYR := by
  induction n generalizing data_ptr flash_ptr s with
  | zero => exact ⟨rfl, rfl, rfl, rfl, rfl, rfl, rfl⟩
  | succ n ih =>
    rw [flash_write_loop]
    exact ih _ _ _

/-- The store log after the copy loop: one store per iteration, word `k` of the data going to
the `k`-th word after `flash_ptr`. -/
theorem flash_write_loop_stores (data : Nat → Nat) (n data_ptr flash_ptr : Nat) (s : Flash) :
    (flash_write_loop data n data_ptr flash_ptr s).stores =
      s.stores ++ (List.range n).map
        (fun k => (flash_ptr + 4 * k, load32 data (data_ptr + 4 * k))) := by
  induction n generalizing data_ptr flash_ptr s with
  | zero => simp [flash_write_loop]
  | succ n ih =>
    rw [flash_write_loop, ih, List.range_succ_eq_map]
    simp only [store32, List.map_cons, List.map_map, List.append_assoc, List.singleton_append,
      Nat.mul_zero, Nat.add_zero]
    congr 2
    apply List.map_congr_left
    intro k _
    simp only [Function.comp_apply, Nat.succ_eq_add_one]
    rw [show flash_ptr + 4 + 4 * k = flash_ptr + 4 * (k + 1) by omega,
      show data_ptr + 4 + 4 * k = data_ptr + 4 * (k + 1) by omega]

/-- What `flash_write` leaves in the registers and in the store log when it returns. -/
theorem flash_write_some (fuel address : Nat) (data : Nat → Nat) (length : Nat) (s t : Flash)
    (h : flash_write fuel address data length s = some t) :
    t.CR = u32 (u32 (s.CR ||| u32 (1 <<< FLASH_CR_PG)) ||| u32 (1 <<< FLASH_CR_LOCK)) ∧
    t.stores = s.stores ++ (List.range ((length + 3) / 4)).map
        (fun k => (address + 4 * k, load32 data (4 * k))) ∧
    t.ACR = s.ACR ∧ t.OPTCR = s.OPTCR ∧
    t.KEYR = s.KEYR ++ [FLASH_KEY1] ++ [FLASH_KEY2] ∧ t.OPTKEYR = s.OPTKEYR := by
  obtain ⟨n1, n2, ht⟩ := wait_mid_wait_some
    (flash_write_body address data length) flash_lock fuel _ t h
  subst ht
  have hn : (if length % 4 = 0 then length / 4 else length / 4 + 1) = (length + 3) / 4 := by
    split_ifs <;> omega
  refine ⟨?_, ?_, ?_, ?_, ?_, ?_⟩
  · simp only [flash_lock, flash_write_body, (flash_write_loop_frame _ _ _ _ _).1]
  · simp only [flash_lock, flash_write_body, flash_write_loop_stores, hn, Nat.zero_add]
  · simp only [flash_lock, flash_write_body, (flash_write_loop_frame _ _ _ _ _).2.2.2.1]
  · simp only [flash_lock, flash_write_body, (flash_write_loop_frame _ _ _ _ _).2.2.2.2.1]
  · simp only [flash_lock, flash_write_body, (flash_write_loop_frame _ _ _ _ _).2.2.2.2.2.1]
  · simp only [flash_lock, flash_write_body, (flash_write_loop_frame _ _ _ _ _).2.2.2.2.2.2]

theorem flash_write_returns (address : Nat) (data : Nat → Nat) (length : Nat) (s : Flash)
    (h : EventuallyIdle s.SR) : ∃ fuel t, flash_write fuel address data length s = some t := by
  refine wait_mid_wait_returns (flash_write_body address data length) flash_lock
    { s with KEYR := s.KEYR ++ [FLASH_KEY1] ++ [FLASH_KEY2] } ?_ h
  intro u
  simp only [flash_write_body, (flash_write_loop_frame _ _ _ _ _).2.1]

/-- C7, the claim refuted on a concrete call: writing one word to the first flash address
from the reset state returns with the PG bit set, not cleared. -/
theorem flash_write_pg_not_cleared_example :
    (flash_write 4 0x08000000 sampleData 4 sampleFlash).map
      (fun t => t.CR.testBit FLASH_CR_PG) = some true := by
  decide

/-- C7 as amended: for every prior control-register value, address, data and length,
`flash_write` returns (the hardware becoming idle) with the PG bit of the control register
set and the LOCK bit set: program mode is enabled before the copy and is still enabled when
the register is locked. -/
theorem flash_write_leaves_pg_set (address : Nat) (data : Nat → Nat) (length : Nat) (s : Flash)
    (hidle : EventuallyIdle s.SR) :
    (∃ fuel t, flash_write fuel address data length s = some t) ∧
    ∀ fuel t, flash_write fuel address data length s = some t →
      t.CR.testBit FLASH_CR_PG = true ∧ t.CR.testBit FLASH_CR_LOCK = true := by
  refine ⟨flash_write_returns _ _ _ s hidle, ?_⟩
  intro fuel t ht
  obtain ⟨hcr, -⟩ := flash_write_some _ _ _ _ _ _ ht
  rw [hcr]
  simp only [testBit_u32, Nat.testBit_or, testBit_one_shiftLeft]
  unfold FLASH_CR_PG FLASH_CR_LOCK
  simp

/-- C7 as amended, at a concrete call. -/
theorem flash_write_leaves_pg_set_witness :
    EventuallyIdle sampleFlash.SR ∧
    ((∃ fuel t, flash_write fuel 0x08000000 sampleData 4 sampleFlash = some t) ∧
     ∀ fuel t, flash_write fuel 0x08000000 sampleData 4 sampleFlash = some t →
      t.CR.testBit FLASH_CR_PG = true ∧ t.CR.testBit FLASH_CR_LOCK = true) :=
  ⟨sampleSR_eventuallyIdle,
   flash_write_leaves_pg_set 0x08000000 sampleData 4 sampleFlash sampleSR_eventuallyIdle⟩

/-- C8, the code at a failing sequence: from the reset state, in which none of PG, SER and MER
is set, a sector erase followed by a write returns with both PG and SER set. -/
theorem sector_erase_then_write_two_modes :
    (sampleFlash.CR.testBit FLASH_CR_PG, sampleFlash.CR.testBit FLASH_CR_SER,
      sampleFlash.CR.testBit FLASH_CR_MER) = (false, false, false) ∧
    ((flash_sector_erase 4 0 sampleFlash).bind
        (flash_write 4 0x08000000 sampleData 4)).map
      (fun t => (t.CR.testBit FLASH_CR_PG, t.CR.testBit FLASH_CR_SER,
        t.CR.testBit FLASH_CR_MER)) = some (true, true, false) := by
  decide

/-- C10: for every address, data and length, `flash_write` returns (the hardware becoming
idle) having issued exactly `(length + 3) / 4` word stores, that is `length / 4` rounded up;
the `k`-th store writes the `k`-th 32-bit word of `data` to `address + 4 * k`.  A length of 0
gives no store and a length that is not a multiple of 4 still stores a whole last word. -/
theorem flash_write_word_stores (address : Nat) (data : Nat → Nat) (length : Nat) (s : Flash)
    (hidle : EventuallyIdle s.SR) :
    (∃ fuel t, flash_write fuel address data length s = some t) ∧
    ∀ fuel t, flash_write fuel address data length s = some t →
      t.stores = s.stores ++ (List.range ((length + 3) / 4)).map
        (fun k => (address + 4 * k, load32 data (4 * k))) ∧
      t.stores.length = s.stores.length + (length + 3) / 4 := by
  refine ⟨flash_write_returns _ _ _ s hidle, ?_⟩
  intro fuel t ht
  obtain ⟨-, hst, -⟩ := flash_write_some _ _ _ _ _ _ ht
  refine ⟨hst, ?_⟩
  rw [hst, List.length_append, List.length_map, List.length_range]

/-- C10 at a concrete call: five bytes are written as two whole words. -/
theorem flash_write_word_stores_witness :
    EventuallyIdle sampleFlash.SR ∧
    ((∃ fuel t, flash_write fuel 0x08000000 sampleData 5 sampleFlash = some t) ∧
     ∀ fuel t, flash_write fuel 0x08000000 sampleData 5 sampleFlash = some t →
      t.stores = sampleFlash.stores ++ (List.range ((5 + 3) / 4)).map
        (fun k => (0x08000000 + 4 * k, load32 sampleData (4 * k))) ∧
      t.stores.length = sampleFlash.stores.length + (5 + 3) / 4) :=
  ⟨sampleSR_eventuallyIdle,
   flash_write_word_stores 0x08000000 sampleData 5 sampleFlash sampleSR_eventuallyIdle⟩

/-! ## Write then read -/

theorem load32_byte0 (data : Nat → Nat) (p : Nat) : load32 data p % 256 = data p % 256 := by
  unfold load32; omega

theorem load32_byte1 (data : Nat → Nat) (p : Nat) :
    load32 data p / 256 % 256 = data (p + 1) % 256 := by
  unfold load32; omega

theorem load32_byte2 (data : Nat → Nat) (p : Nat) :
    load32 data p / 65536 % 256 = data (p + 2) % 256 := by
  unfold load32; omega

theorem load32_byte3 (data : Nat → Nat) (p : Nat) :
    load32 data p / 16777216 % 256 = data (p + 3) % 256 := by
  unfold load32; omega

/-- The flash array after the copy loop: the bytes of the words stored hold the bytes of the
data, every other byte is as before. -/
theorem flash_write_loop_mem (data : Nat → Nat) (n data_ptr flash_ptr : Nat) (s : Flash)
    (a : Nat) :
    (flash_write_loop data n data_ptr flash_ptr s).mem a =
      if flash_ptr ≤ a ∧ a < flash_ptr + 4 * n then data (data_ptr + (a - flash_ptr)) % 256
      else s.mem a := by
  induction n generalizing data_ptr flash_ptr s with
  | zero =>
    have h : ¬ (flash_ptr ≤ a ∧ a < flash_ptr + 4 * 0) := by omega
    rw [flash_write_loop, if_neg h]
  | succ n ih =>
    rw [flash_write_loop, ih]
    by_cases h1 : flash_ptr + 4 ≤ a ∧ a < flash_ptr + 4 + 4 * n
    · have h2 : flash_ptr ≤ a ∧ a < flash_ptr + 4 * (n + 1) := by omega
      rw [if_pos h1, if_pos h2,
        show data_ptr + 4 + (a - (flash_ptr + 4)) = data_ptr + (a - flash_ptr) by omega]
    · rw [if_neg h1]
      by_cases h2 : flash_ptr ≤ a ∧ a < flash_ptr + 4 * (n + 1)
      · rw [if_pos h2]
        have h3 : a = flash_ptr ∨ a = flash_ptr + 1 ∨ a = flash_ptr + 2 ∨
            a = flash_ptr + 3 := by
          omega
        rcases h3 with h | h | h | h
        · subst h
          simp only [store32, if_true, load32_byte0, Nat.sub_self, Nat.add_zero]
        · subst h
          have e1 : ¬ (flash_ptr + 1 = flash_ptr) := by omega
          simp only [store32, if_neg e1, if_true, load32_byte1, Nat.add_sub_cancel_left]
        · subst h
          have e1 : ¬ (flash_ptr + 2 = flash_ptr) := by omega
          have e2 : ¬ (flash_ptr + 2 = flash_ptr + 1) := by omega
          simp only [store32, if_neg e1, if_neg e2, if_true, load32_byte2,
            Nat.add_sub_cancel_left]
        · subst h
          have e1 : ¬ (flash_ptr + 3 = flash_ptr) := by omega
          have e2 : ¬ (flash_ptr + 3 = flash_ptr + 1) := by omega
          have e3 : ¬ (flash_ptr + 3 = flash_ptr + 2) := by omega
          simp only [store32, if_neg e1, if_neg e2, if_neg e3, if_true, load32_byte3,
            Nat.add_sub_cancel_left]
      · rw [if_neg h2]
        have e0 : ¬ (a = flash_ptr) := by omega
        have e1 : ¬ (a = flash_ptr + 1) := by omega
        have e2 : ¬ (a = flash_ptr + 2) := by omega
        have e3 : ¬ (a = flash_ptr + 3) := by omega
        simp only [store32, if_neg e0, if_neg e1, if_neg e2, if_neg e3]

/-- The flash array when `flash_write` returns. -/
theorem flash_write_mem (fuel address : Nat) (data : Nat → Nat) (length : Nat) (s t : Flash)
    (h : flash_write fuel address data length s = some t) (a : Nat) :
    t.mem a =
      if address ≤ a ∧ a < address + 4 * ((length + 3) / 4) then data (a - address) % 256
      else s.mem a := by
  obtain ⟨n1, n2, ht⟩ := wait_mid_wait_some
    (flash_write_body address data length) flash_lock fuel _ t h
  subst ht
  have hn : (if length % 4 = 0 then length / 4 else length / 4 + 1) = (length + 3) / 4 := by
    split_ifs <;> omega
  simp only [flash_lock, flash_write_body, flash_write_loop_mem, hn, Nat.zero_add]

/-- The result of a read that passes the bounds test. -/
theorem flash_read_accepted (FLASH_SECTOR_0_BASE_ADDR FLASH_END_ADDR address length : Nat)
    (rx_buffer : Nat → Nat) (s : Flash) (hend : FLASH_END_ADDR < 2 ^ 32)
    (hbase : address ≥ FLASH_SECTOR_0_BASE_ADDR) (hlen : address + length ≤ FLASH_END_ADDR) :
    flash_read FLASH_SECTOR_0_BASE_ADDR FLASH_END_ADDR address rx_buffer length s =
      (FLASH_SUCCESS, flash_read_loop s.mem length address 0 rx_buffer, s) := by
  have hle : address ≤ FLASH_END_ADDR := by omega
  have hsub : ¬ (length > sub32 FLASH_END_ADDR address) := by
    rw [sub32_of_le _ _ hend hle]; omega
  have hcond : ¬ ((!(decide (address ≥ FLASH_SECTOR_0_BASE_ADDR) &&
      decide (address ≤ FLASH_END_ADDR)) ||
      decide (length > sub32 FLASH_END_ADDR address)) = true) := by
    simp [hbase, hle, hsub]
  unfold flash_read
  rw [if_neg hcond]

/-- C11: write/read round trip.  For every address and length inside the flash address space
(in particular every length that is a multiple of 4) and every data buffer of bytes,
`flash_write` returns (the hardware becoming idle, the array taking the stores), and a
`flash_read` of the same range afterwards returns `FLASH_SUCCESS` with `buf[i] = data[i]` for
every `i < len`.  The data buffer is an object of its own, so it does not overlap the
target. -/
theorem write_then_read_round_trip (FLASH_SECTOR_0_BASE_ADDR FLASH_END_ADDR address len : Nat)
    (data rx_buffer : Nat → Nat) (s : Flash) (hend : FLASH_END_ADDR < 2 ^ 32)
    (hbase : address ≥ FLASH_SECTOR_0_BASE_ADDR) (hlen : address + len ≤ FLASH_END_ADDR)
    (h4 : len % 4 = 0) (hdata : ∀ i, i < len → data i < 256) (hidle : EventuallyIdle s.SR) :
    (∃ fuel t, flash_write fuel address data len s = some t) ∧
    ∀ fuel t, flash_write fuel address data len s = some t →
      (flash_read FLASH_SECTOR_0_BASE_ADDR FLASH_END_ADDR address rx_buffer len t).1
        = FLASH_SUCCESS ∧
      ∀ i, i < len →
        (flash_read FLASH_SECTOR_0_BASE_ADDR FLASH_END_ADDR address rx_buffer len t).2.1 i
          = data i := by
  refine ⟨flash_write_returns _ _ _ s hidle, ?_⟩
  intro fuel t ht
  rw [flash_read_accepted _ _ _ _ _ _ hend hbase hlen]
  refine ⟨rfl, ?_⟩
  intro i hi
  show flash_read_loop t.mem len address 0 rx_buffer i = data i
  rw [flash_read_loop_apply]
  have h0 : 0 ≤ i ∧ i < 0 + len := by omega
  rw [if_pos h0, flash_write_mem _ _ _ _ _ _ ht]
  have h1 : address ≤ address + (i - 0) ∧
      address + (i - 0) < address + 4 * ((len + 3) / 4) := by
    omega
  rw [if_pos h1, show address + (i - 0) - address = i by omega]
  exact Nat.mod_eq_of_lt (hdata i hi)

/-- C11 at a concrete call: eight bytes written to, and read back from, the start of the
flash. -/
theorem write_then_read_round_trip_witness :
    EventuallyIdle sampleFlash.SR ∧
    ((∃ fuel t, flash_write fuel 0x08000000 sampleData 8 sampleFlash = some t) ∧
    ∀ fuel t, flash_write fuel 0x08000000 sampleData 8 sampleFlash = some t →
      (flash_read 0x08000000 0x0807FFFF 0x08000000 (fun _ => 0) 8 t).1 = FLASH_SUCCESS ∧
      ∀ i, i < 8 →
        (flash_read 0x08000000 0x0807FFFF 0x08000000 (fun _ => 0) 8 t).2.1 i
          = sampleData i) :=
  ⟨sampleSR_eventuallyIdle,
   write_then_read_round_trip 0x08000000 0x0807FFFF 0x08000000 8 sampleData (fun _ => 0)
    sampleFlash (by norm_num) (by norm_num) (by norm_num) (by norm_num)
    (fun i hi => by unfold sampleData; omega) sampleSR_eventuallyIdle⟩

/-! ## Timing calibrator: the wait-state field -/

/-- Each bit of the access-control register after the clear-then-set pair of writes of
`flash_init`. -/
theorem testBit_acr_after_writes (r w i : Nat) :
    (u32 (u32 (r &&& not32 (0xF <<< FLASH_ACR_LATENCY)) |||
      u32 ((w &&& 0xF) <<< FLASH_ACR_LATENCY))).testBit i =
      (decide (i < 32) && ((decide (i < 4) && w.testBit i) || (!decide (i < 4) && r.testBit i)))
      := by
  simp only [testBit_u32, Nat.testBit_or, Nat.testBit_and, testBit_not32,
    Nat.testBit_shiftLeft, testBit_15]
  unfold FLASH_ACR_LATENCY
  have e : i - 0 = i := by omega
  rw [e]
  cases r.testBit i <;> cases w.testBit i <;>
    rw [Bool.eq_iff_iff] <;>
    simp only [Bool.and_eq_true, Bool.or_eq_true, Bool.not_eq_true',
      decide_eq_true_eq, decide_eq_false_iff_not, Bool.true_and, Bool.and_true, Bool.false_and,
      Bool.and_false, Bool.or_false, Bool.false_or, Bool.true_or, Bool.or_true, Bool.not_and,
      Bool.false_eq_true, and_false, false_and, or_false, false_or, and_true, true_and,
      or_true, true_or, ge_iff_le, iff_false, iff_true, false_iff, true_iff] <;>
    omega

/-- C12: for every core clock frequency of at least 1 MHz (a 32-bit value) and every prior
access-control register value, `flash_init` returns (the hardware becoming idle) with the
LATENCY field equal to `(system_clock / 1000000 - 1) / 30` reduced modulo 16, and with every
other bit of the access-control register as before. -/
theorem flash_init_wait_states (system_clock : Nat) (s : Flash)
    (hclk : MEGA ≤ system_clock) (h32 : system_clock < 2 ^ 32) (hidle : EventuallyIdle s.SR) :
    (∃ fuel t, flash_init fuel system_clock s = some t) ∧
    ∀ fuel t, flash_init fuel system_clock s = some t →
      field t.ACR FLASH_ACR_LATENCY 4 = (system_clock / 1000000 - 1) / 30 % 16 ∧
      ∀ i, 4 ≤ i → i < 32 → t.ACR.testBit i = s.ACR.testBit i := by
  refine ⟨flash_init_returns _ s hidle, ?_⟩
  intro fuel t ht
  obtain ⟨hacr, -⟩ := flash_init_some _ _ _ _ ht
  rw [hacr]
  constructor
  · rw [latency_after_writes]
    unfold MEGA at hclk ⊢
    have h1 : 1 ≤ system_clock / 1000000 := by omega
    have h2 : system_clock / 1000000 < 2 ^ 32 := by omega
    rw [sub32_of_le _ _ h2 h1]
    unfold u8
    omega
  · intro i h4 hi
    rw [testBit_acr_after_writes]
    have h5 : ¬ (i < 4) := by omega
    simp [hi, h5]

/-- C12 at a concrete call: 180 MHz gives five wait states. -/
theorem flash_init_wait_states_witness :
    (180000000 - 1000000 * 180 = 0 ∧ (180000000 / 1000000 - 1) / 30 % 16 = 5) ∧
    ((∃ fuel t, flash_init fuel 180000000 sampleFlash = some t) ∧
    ∀ fuel t, flash_init fuel 180000000 sampleFlash = some t →
      field t.ACR FLASH_ACR_LATENCY 4 = (180000000 / 1000000 - 1) / 30 % 16 ∧
      ∀ i, 4 ≤ i → i < 32 → t.ACR.testBit i = sampleFlash.ACR.testBit i) :=
  ⟨by decide,
   flash_init_wait_states 180000000 sampleFlash (by decide) (by norm_num) sampleSR_eventuallyIdle⟩

/-! ## Erase path -/

theorem testBit_127 (i : Nat) : Nat.testBit 127 i = decide (i < 7) := by
  have h : (127 : Nat) = 2 ^ 7 - 1 := by norm_num
  rw [h, Nat.testBit_two_pow_sub_one]

/-- What `flash_sector_erase` leaves in the registers when it returns. -/
theorem flash_sector_erase_some (fuel sector_number : Nat) (s t : Flash)
    (h : flash_sector_erase fuel sector_number s = some t) :
    t.CR = (flash_lock (flash_sector_erase_body sector_number s)).CR ∧
    t.ACR = s.ACR ∧ t.OPTCR = s.OPTCR ∧ t.mem = s.mem ∧ t.stores = s.stores ∧
    t.KEYR = s.KEYR ++ [FLASH_KEY1] ++ [FLASH_KEY2] ∧ t.OPTKEYR = s.OPTKEYR := by
  obtain ⟨n1, n2, ht⟩ := wait_mid_wait_some
    (flash_sector_erase_body sector_number) flash_lock fuel _ t h
  subst ht
  exact ⟨rfl, rfl, rfl, rfl, rfl, rfl, rfl⟩

theorem flash_sector_erase_returns (sector_number : Nat) (s : Flash)
    (h : EventuallyIdle s.SR) : ∃ fuel t, flash_sector_erase fuel sector_number s = some t :=
  wait_mid_wait_returns (flash_sector_erase_body sector_number) flash_lock
    { s with KEYR := s.KEYR ++ [FLASH_KEY1] ++ [FLASH_KEY2] } (fun _ => rfl) h

/-- What `flash_mass_erase` leaves in the registers when it returns. -/
theorem flash_mass_erase_some (fuel : Nat) (s t : Flash)
    (h : flash_mass_erase fuel s = some t) :
    t.CR = (flash_lock (flash_mass_erase_body s)).CR ∧
    t.ACR = s.ACR ∧ t.OPTCR = s.OPTCR ∧ t.mem = s.mem ∧ t.stores = s.stores ∧
    t.KEYR = s.KEYR ++ [FLASH_KEY1] ++ [FLASH_KEY2] ∧ t.OPTKEYR = s.OPTKEYR := by
  obtain ⟨n1, n2, ht⟩ := wait_mid_wait_some flash_mass_erase_body flash_lock fuel _ t h
  subst ht
  exact ⟨rfl, rfl, rfl, rfl, rfl, rfl, rfl⟩

theorem flash_mass_erase_returns (s : Flash) (h : EventuallyIdle s.SR) :
    ∃ fuel t, flash_mass_erase fuel s = some t :=
  wait_mid_wait_returns flash_mass_erase_body flash_lock
    { s with KEYR := s.KEYR ++ [FLASH_KEY1] ++ [FLASH_KEY2] } (fun _ => rfl) h

/-- Each bit of the control register after a sector erase. -/
theorem testBit_cr_sector_erase (sector_number : Nat) (s : Flash) (i : Nat) :
    (flash_lock (flash_sector_erase_body sector_number s)).CR.testBit i =
      (decide (i < 32) &&
        (decide (i = FLASH_CR_LOCK) || decide (i = FLASH_CR_STRT) || decide (i = FLASH_CR_SER) ||
         (decide (FLASH_CR_SNB ≤ i) && decide (i < FLASH_CR_SNB + 4) &&
            sector_number.testBit (i - FLASH_CR_SNB)) ||
         (decide (7 ≤ i) && s.CR.testBit i))) := by
  simp only [flash_lock, flash_sector_erase_body, testBit_u32, Nat.testBit_or, Nat.testBit_and,
    testBit_not32, testBit_one_shiftLeft, Nat.testBit_shiftLeft, testBit_127, testBit_15,
    testBit_one]
  unfold FLASH_CR_LOCK FLASH_CR_STRT FLASH_CR_SER FLASH_CR_SNB
  cases s.CR.testBit i <;> cases sector_number.testBit (i - 3) <;>
    rw [Bool.eq_iff_iff] <;>
    simp only [Bool.and_eq_true, Bool.or_eq_true, Bool.not_eq_true',
      decide_eq_true_eq, decide_eq_false_iff_not, Bool.true_and, Bool.and_true, Bool.false_and,
      Bool.and_false, Bool.or_false, Bool.false_or, Bool.true_or, Bool.or_true, Bool.not_and,
      Bool.false_eq_true, and_false, false_and, or_false, false_or, and_true, true_and,
      or_true, true_or, ge_iff_le, iff_false, iff_true, false_iff, true_iff] <;>
    omega

/-- Each bit of the control register after a mass erase. -/
theorem testBit_cr_mass_erase (s : Flash) (i : Nat) :
    (flash_lock (flash_mass_erase_body s)).CR.testBit i =
      (decide (i < 32) &&
        (decide (i = FLASH_CR_LOCK) || decide (i = FLASH_CR_STRT) || decide (i = FLASH_CR_MER) ||
         (decide (7 ≤ i) && s.CR.testBit i))) := by
  simp only [flash_lock, flash_mass_erase_body, testBit_u32, Nat.testBit_or, Nat.testBit_and,
    testBit_not32, testBit_one_shiftLeft, Nat.testBit_shiftLeft, testBit_127, testBit_one]
  unfold FLASH_CR_LOCK FLASH_CR_STRT FLASH_CR_MER
  cases s.CR.testBit i <;>
    rw [Bool.eq_iff_iff] <;>
    simp only [Bool.and_eq_true, Bool.or_eq_true, Bool.not_eq_true',
      decide_eq_true_eq, decide_eq_false_iff_not, Bool.true_and, Bool.and_true, Bool.false_and,
      Bool.and_false, Bool.or_false, Bool.false_or, Bool.true_or, Bool.or_true, Bool.not_and,
      Bool.false_eq_true, and_false, false_and, or_false, false_or, and_true, true_and,
      or_true, true_or, ge_iff_le, iff_false, iff_true, false_iff, true_iff] <;>
    omega

/-- C13: for every prior control-register value and every sector number, `flash_sector_erase`
returns (the hardware becoming idle) with the SNB field equal to `sector_number AND 0xF`, the
SER bit set, the PG and MER bits clear and the STRT bit set; every bit other than the low 7
configuration bits, STRT and LOCK, and so the PSIZE field, is as before. -/
theorem flash_sector_erase_control (sector_number : Nat) (s : Flash)
    (hidle : EventuallyIdle s.SR) :
    (∃ fuel t, flash_sector_erase fuel sector_number s = some t) ∧
    ∀ fuel t, flash_sector_erase fuel sector_number s = some t →
      field t.CR FLASH_CR_SNB 4 = sector_number &&& 0xF ∧
      t.CR.testBit FLASH_CR_SER = true ∧ t.CR.testBit FLASH_CR_PG = false ∧
      t.CR.testBit FLASH_CR_MER = false ∧ t.CR.testBit FLASH_CR_STRT = true ∧
      (∀ i, 7 ≤ i → i < 32 → i ≠ FLASH_CR_STRT → i ≠ FLASH_CR_LOCK →
        t.CR.testBit i = s.CR.testBit i) ∧
      field t.CR FLASH_CR_PSIZE 2 = field s.CR FLASH_CR_PSIZE 2 := by
  refine ⟨flash_sector_erase_returns _ s hidle, ?_⟩
  intro fuel t ht
  obtain ⟨hcr, -⟩ := flash_sector_erase_some _ _ _ _ ht
  rw [hcr]
  refine ⟨?_, ?_, ?_, ?_, ?_, ?_, ?_⟩
  · apply Nat.eq_of_testBit_eq
    intro i
    rw [testBit_field, testBit_cr_sector_erase, Nat.testBit_and, testBit_15]
    unfold FLASH_CR_LOCK FLASH_CR_STRT FLASH_CR_SER FLASH_CR_SNB
    rw [show 3 + i - 3 = i by omega]
    by_cases hi : i < 4
    · have h1 : 3 + i < 32 := by omega
      have h2 : ¬ (3 + i = 31) := by omega
      have h3 : ¬ (3 + i = 16) := by omega
      have h4 : ¬ (3 + i = 1) := by omega
      have h5 : 3 + i < 3 + 4 := by omega
      have h6 : ¬ (7 ≤ 3 + i) := by omega
      simp [hi, h1, h2, h3, h4, h5, h6]
    · simp [hi]
  · rw [testBit_cr_sector_erase]
    unfold FLASH_CR_LOCK FLASH_CR_STRT FLASH_CR_SER FLASH_CR_SNB
    simp
  · rw [testBit_cr_sector_erase]
    unfold FLASH_CR_LOCK FLASH_CR_STRT FLASH_CR_SER FLASH_CR_SNB FLASH_CR_PG
    simp
  · rw [testBit_cr_sector_erase]
    unfold FLASH_CR_LOCK FLASH_CR_STRT FLASH_CR_SER FLASH_CR_SNB FLASH_CR_MER
    simp
  · rw [testBit_cr_sector_erase]
    unfold FLASH_CR_LOCK FLASH_CR_STRT FLASH_CR_SER FLASH_CR_SNB
    simp
  · intro i h7 h32 hs hl
    rw [testBit_cr_sector_erase]
    unfold FLASH_CR_STRT at hs
    unfold FLASH_CR_LOCK at hl
    unfold FLASH_CR_LOCK FLASH_CR_STRT FLASH_CR_SER FLASH_CR_SNB
    have h1 : ¬ (i = 1) := by omega
    have h2 : ¬ (i < 3 + 4) := by omega
    simp [h7, h32, hs, hl, h1, h2]
  · apply Nat.eq_of_testBit_eq
    intro i
    rw [testBit_field, testBit_field, testBit_cr_sector_erase]
    unfold FLASH_CR_LOCK FLASH_CR_STRT FLASH_CR_SER FLASH_CR_SNB FLASH_CR_PSIZE
    by_cases hi : i < 2
    · have h1 : 8 + i < 32 := by omega
      have h2 : ¬ (8 + i = 31) := by omega
      have h3 : ¬ (8 + i = 16) := by omega
      have h4 : ¬ (8 + i = 1) := by omega
      have h5 : ¬ (8 + i < 3 + 4) := by omega
      have h6 : 7 ≤ 8 + i := by omega
      simp [hi, h1, h2, h3, h4, h5, h6]
    · simp [hi]

/-- C13 at a concrete call: sector number 0x1B, whose low four bits are 0xB. -/
theorem flash_sector_erase_control_witness :
    EventuallyIdle sampleFlash.SR ∧
    ((∃ fuel t, flash_sector_erase fuel 0x1B sampleFlash = some t) ∧
    ∀ fuel t, flash_sector_erase fuel 0x1B sampleFlash = some t →
      field t.CR FLASH_CR_SNB 4 = 0x1B &&& 0xF ∧
      t.CR.testBit FLASH_CR_SER = true ∧ t.CR.testBit FLASH_CR_PG = false ∧
      t.CR.testBit FLASH_CR_MER = false ∧ t.CR.testBit FLASH_CR_STRT = true ∧
      (∀ i, 7 ≤ i → i < 32 → i ≠ FLASH_CR_STRT → i ≠ FLASH_CR_LOCK →
        t.CR.testBit i = sampleFlash.CR.testBit i) ∧
      field t.CR FLASH_CR_PSIZE 2 = field sampleFlash.CR FLASH_CR_PSIZE 2) :=
  ⟨sampleSR_eventuallyIdle,
   flash_sector_erase_control 0x1B sampleFlash sampleSR_eventuallyIdle⟩

/-- C17: for every prior control-register value, `flash_mass_erase` returns (the hardware
becoming idle) with the MER bit set, the PG and SER bits clear, the SNB field equal to 0 and
the STRT bit set; every bit other than the low 7 configuration bits, STRT and LOCK is as
before. -/
theorem flash_mass_erase_control (s : Flash) (hidle : EventuallyIdle s.SR) :
    (∃ fuel t, flash_mass_erase fuel s = some t) ∧
    ∀ fuel t, flash_mass_erase fuel s = some t →
      t.CR.testBit FLASH_CR_MER = true ∧ t.CR.testBit FLASH_CR_PG = false ∧
      t.CR.testBit FLASH_CR_SER = false ∧ field t.CR FLASH_CR_SNB 4 = 0 ∧
      t.CR.testBit FLASH_CR_STRT = true ∧
      (∀ i, 7 ≤ i → i < 32 → i ≠ FLASH_CR_STRT → i ≠ FLASH_CR_LOCK →
        t.CR.testBit i = s.CR.testBit i) := by
  refine ⟨flash_mass_erase_returns s hidle, ?_⟩
  intro fuel t ht
  obtain ⟨hcr, -⟩ := flash_mass_erase_some _ _ _ ht
  rw [hcr]
  refine ⟨?_, ?_, ?_, ?_, ?_, ?_⟩
  · rw [testBit_cr_mass_erase]
    unfold FLASH_CR_LOCK FLASH_CR_STRT FLASH_CR_MER
    simp
  · rw [testBit_cr_mass_erase]
    unfold FLASH_CR_LOCK FLASH_CR_STRT FLASH_CR_MER FLASH_CR_PG
    simp
  · rw [testBit_cr_mass_erase]
    unfold FLASH_CR_LOCK FLASH_CR_STRT FLASH_CR_MER FLASH_CR_SER
    simp
  · apply Nat.eq_of_testBit_eq
    intro i
    rw [testBit_field, testBit_cr_mass_erase, Nat.zero_testBit]
    unfold FLASH_CR_LOCK FLASH_CR_STRT FLASH_CR_MER FLASH_CR_SNB
    by_cases hi : i < 4
    · have h2 : ¬ (3 + i = 31) := by omega
      have h3 : ¬ (3 + i = 16) := by omega
      have h4 : ¬ (3 + i = 2) := by omega
      have h6 : ¬ (7 ≤ 3 + i) := by omega
      simp [h2, h3, h4, h6]
    · simp [hi]
  · rw [testBit_cr_mass_erase]
    unfold FLASH_CR_LOCK FLASH_CR_STRT FLASH_CR_MER
    simp
  · intro i h7 h32 hs hl
    rw [testBit_cr_mass_erase]
    unfold FLASH_CR_STRT at hs
    unfold FLASH_CR_LOCK at hl
    unfold FLASH_CR_LOCK FLASH_CR_STRT FLASH_CR_MER
    have h1 : ¬ (i = 2) := by omega
    simp [h7, h32, hs, hl, h1]

/-- C17 at a concrete call: a mass erase after the program-size field was set. -/
theorem flash_mass_erase_control_witness :
    EventuallyIdle samplePsizeFlash.SR ∧
    ((∃ fuel t, flash_mass_erase fuel samplePsizeFlash = some t) ∧
    ∀ fuel t, flash_mass_erase fuel samplePsizeFlash = some t →
      t.CR.testBit FLASH_CR_MER = true ∧ t.CR.testBit FLASH_CR_PG = false ∧
      t.CR.testBit FLASH_CR_SER = false ∧ field t.CR FLASH_CR_SNB 4 = 0 ∧
      t.CR.testBit FLASH_CR_STRT = true ∧
      (∀ i, 7 ≤ i → i < 32 → i ≠ FLASH_CR_STRT → i ≠ FLASH_CR_LOCK →
        t.CR.testBit i = samplePsizeFlash.CR.testBit i)) :=
  ⟨sampleSR_eventuallyIdle, flash_mass_erase_control samplePsizeFlash sampleSR_eventuallyIdle⟩

/-! ## Lock / unlock sequencer -/

theorem flash_unlock_some (fuel : Nat) (s t : Flash) (h : flash_unlock fuel s = some t) :
    ∃ n, t = { s with KEYR := s.KEYR ++ [FLASH_KEY1] ++ [FLASH_KEY2], polls := n } :=
  wait_for_not_busy_frame fuel _ t h

theorem flash_unlock_returns (s : Flash) (h : EventuallyIdle s.SR) :
    ∃ fuel t, flash_unlock fuel s = some t := by
  obtain ⟨f0, hf0⟩ := wait_for_not_busy_returns
    { s with KEYR := s.KEYR ++ [FLASH_KEY1] ++ [FLASH_KEY2] } h
  obtain ⟨t, ht⟩ := hf0 f0 (le_refl _)
  exact ⟨f0, t, ht⟩

/-- C14: for every control-register value, `flash_unlock` (the hardware becoming idle)
followed at once by `flash_lock` leaves the LOCK bit set and every other bit of the control
register as before; the key register has received the two keys `0x45670123`, `0xCDEF89AB` in
that order. -/
theorem unlock_then_lock (s : Flash) (hidle : EventuallyIdle s.SR) :
    (∃ fuel t, flash_unlock fuel s = some t) ∧
    ∀ fuel t, flash_unlock fuel s = some t →
      (flash_lock t).CR.testBit FLASH_CR_LOCK = true ∧
      (∀ i, i < 32 → i ≠ FLASH_CR_LOCK → (flash_lock t).CR.testBit i = s.CR.testBit i) ∧
      (flash_lock t).KEYR = s.KEYR ++ [0x45670123, 0xCDEF89AB] := by
  refine ⟨flash_unlock_returns s hidle, ?_⟩
  intro fuel t ht
  obtain ⟨n, hn⟩ := flash_unlock_some _ _ _ ht
  subst hn
  refine ⟨?_, ?_, ?_⟩
  · simp only [flash_lock, testBit_u32, Nat.testBit_or, testBit_one_shiftLeft]
    unfold FLASH_CR_LOCK
    simp
  · intro i hi hl
    simp only [flash_lock, testBit_u32, Nat.testBit_or, testBit_one_shiftLeft]
    unfold FLASH_CR_LOCK at hl ⊢
    have h1 : ¬ (31 = i) := fun h => hl h.symm
    simp [hi, h1]
  · simp [flash_lock, FLASH_KEY1, FLASH_KEY2]

/-- C14 at a concrete state: an unlocked control register with the program-size field set. -/
theorem unlock_then_lock_witness :
    EventuallyIdle sampleUnlockedFlash.SR ∧
    ((∃ fuel t, flash_unlock fuel sampleUnlockedFlash = some t) ∧
    ∀ fuel t, flash_unlock fuel sampleUnlockedFlash = some t →
      (flash_lock t).CR.testBit FLASH_CR_LOCK = true ∧
      (∀ i, i < 32 → i ≠ FLASH_CR_LOCK →
        (flash_lock t).CR.testBit i = sampleUnlockedFlash.CR.testBit i) ∧
      (flash_lock t).KEYR = sampleUnlockedFlash.KEYR ++ [0x45670123, 0xCDEF89AB]) :=
  ⟨sampleSR_eventuallyIdle, unlock_then_lock sampleUnlockedFlash sampleSR_eventuallyIdle⟩

/-! ## Every mutating operation locks again -/

/-- C15: every mutating operation locks again on return.  For every prior register state and
every argument, `flash_init`, `flash_write`, `flash_sector_erase` and `flash_mass_erase` return
(the hardware becoming idle) with the LOCK bit of the control register set, and
`flash_set_protection_level` returns with the OPTLOCK bit of the option-control register set,
whichever of its three branches the level selects. -/
theorem operations_lock_again (system_clock address length sector_number prot_level
    sectors : Nat) (data : Nat → Nat) (s : Flash) (hidle : EventuallyIdle s.SR) :
    ((∃ fuel t, flash_init fuel system_clock s = some t) ∧
      ∀ fuel t, flash_init fuel system_clock s = some t →
        t.CR.testBit FLASH_CR_LOCK = true) ∧
    ((∃ fuel t, flash_write fuel address data length s = some t) ∧
      ∀ fuel t, flash_write fuel address data length s = some t →
        t.CR.testBit FLASH_CR_LOCK = true) ∧
    ((∃ fuel t, flash_sector_erase fuel sector_number s = some t) ∧
      ∀ fuel t, flash_sector_erase fuel sector_number s = some t →
        t.CR.testBit FLASH_CR_LOCK = true) ∧
    ((∃ fuel t, flash_mass_erase fuel s = some t) ∧
      ∀ fuel t, flash_mass_erase fuel s = some t →
        t.CR.testBit FLASH_CR_LOCK = true) ∧
    ((∃ fuel t, flash_set_protection_level fuel prot_level sectors s = some t) ∧
      ∀ fuel t, flash_set_protection_level fuel prot_level sectors s = some t →
        t.OPTCR.testBit FLASH_OPTCR_OPTLOCK = true) := by
  refine ⟨⟨flash_init_returns _ s hidle, ?_⟩, ⟨flash_write_returns _ _ _ s hidle, ?_⟩,
    ⟨flash_sector_erase_returns _ s hidle, ?_⟩, ⟨flash_mass_erase_returns s hidle, ?_⟩,
    ⟨flash_set_protection_level_returns _ _ s hidle, ?_⟩⟩
  · intro fuel t ht
    obtain ⟨-, hcr, -⟩ := flash_init_some _ _ _ _ ht
    rw [hcr]
    simp only [testBit_u32, Nat.testBit_or, testBit_one_shiftLeft]
    unfold FLASH_CR_LOCK
    simp
  · intro fuel t ht
    obtain ⟨hcr, -⟩ := flash_write_some _ _ _ _ _ _ ht
    rw [hcr]
    simp only [testBit_u32, Nat.testBit_or, testBit_one_shiftLeft]
    unfold FLASH_CR_LOCK
    simp
  · intro fuel t ht
    obtain ⟨hcr, -⟩ := flash_sector_erase_some _ _ _ _ ht
    rw [hcr, testBit_cr_sector_erase]
    unfold FLASH_CR_LOCK
    simp
  · intro fuel t ht
    obtain ⟨hcr, -⟩ := flash_mass_erase_some _ _ _ ht
    rw [hcr, testBit_cr_mass_erase]
    unfold FLASH_CR_LOCK
    simp
  · intro fuel t ht
    obtain ⟨hopt, -⟩ := flash_set_protection_level_some _ _ _ _ _ ht
    rw [hopt]
    by_cases h1 : prot_level = FLASH_PROT_READ_WRITE
    · subst h1
      rw [testBit_optcr_read_write]
      unfold FLASH_OPTCR_OPTLOCK
      simp
    · by_cases h2 : prot_level = FLASH_PROT_WRITE
      · subst h2
        rw [testBit_optcr_write]
        unfold FLASH_OPTCR_OPTLOCK
        simp
      · rw [testBit_optcr_none _ _ _ _ h1 h2]
        unfold FLASH_OPTCR_OPTLOCK
        simp

/-- C15 at a concrete state: every operation started with both registers unlocked. -/
theorem operations_lock_again_witness :
    (sampleUnlockedFlash.CR.testBit FLASH_CR_LOCK = false ∧
      EventuallyIdle sampleUnlockedFlash.SR) ∧
    (((∃ fuel t, flash_init fuel 16000000 sampleUnlockedFlash = some t) ∧
      ∀ fuel t, flash_init fuel 16000000 sampleUnlockedFlash = some t →
        t.CR.testBit FLASH_CR_LOCK = true) ∧
    ((∃ fuel t, flash_write fuel 0x08000000 sampleData 4 sampleUnlockedFlash = some t) ∧
      ∀ fuel t, flash_write fuel 0x08000000 sampleData 4 sampleUnlockedFlash = some t →
        t.CR.testBit FLASH_CR_LOCK = true) ∧
    ((∃ fuel t, flash_sector_erase fuel 7 sampleUnlockedFlash = some t) ∧
      ∀ fuel t, flash_sector_erase fuel 7 sampleUnlockedFlash = some t →
        t.CR.testBit FLASH_CR_LOCK = true) ∧
    ((∃ fuel t, flash_mass_erase fuel sampleUnlockedFlash = some t) ∧
      ∀ fuel t, flash_mass_erase fuel sampleUnlockedFlash = some t →
        t.CR.testBit FLASH_CR_LOCK = true) ∧
    ((∃ fuel t, flash_set_protection_level fuel FLASH_PROT_WRITE 3 sampleUnlockedFlash
        = some t) ∧
      ∀ fuel t, flash_set_protection_level fuel FLASH_PROT_WRITE 3 sampleUnlockedFlash
        = some t → t.OPTCR.testBit FLASH_OPTCR_OPTLOCK = true)) :=
  ⟨⟨by decide, sampleSR_eventuallyIdle⟩,
   operations_lock_again 16000000 0x08000000 4 7 FLASH_PROT_WRITE 3 sampleData
    sampleUnlockedFlash sampleSR_eventuallyIdle⟩

/-! ## Program size -/

theorem testBit_2 (i : Nat) : Nat.testBit 2 i = decide (i = 1) := by
  have h : (2 : Nat) = 2 ^ 1 := by norm_num
  rw [h, Nat.testBit_two_pow]
  by_cases hi : i = 1
  · simp [hi]
  · have : ¬ (1 = i) := fun h1 => hi h1.symm
    simp [hi, this]

/-- C16, the code on every input: `flash_init` ORs 2 into the PSIZE field without clearing it
first, so the field it leaves is the prior field OR 2: 2 when the field held 0 or 2, but 3
when it held 1 or 3. -/
theorem flash_init_psize_or (system_clock : Nat) (s : Flash) (hidle : EventuallyIdle s.SR) :
    (∃ fuel t, flash_init fuel system_clock s = some t) ∧
    ∀ fuel t, flash_init fuel system_clock s = some t →
      field t.CR FLASH_CR_PSIZE 2 = field s.CR FLASH_CR_PSIZE 2 ||| 2 := by
  refine ⟨flash_init_returns _ s hidle, ?_⟩
  intro fuel t ht
  obtain ⟨-, hcr, -⟩ := flash_init_some _ _ _ _ ht
  rw [hcr]
  apply Nat.eq_of_testBit_eq
  intro i
  simp only [testBit_field, testBit_u32, Nat.testBit_or, testBit_one_shiftLeft,
    Nat.testBit_shiftLeft, testBit_2]
  unfold FLASH_CR_PSIZE FLASH_CR_LOCK
  by_cases hi : i < 2
  · have h1 : 8 + i < 32 := by omega
    have h2 : ¬ (31 = 8 + i) := by omega
    have h3 : 8 + i - 8 = i := by omega
    have h5 : ¬ (31 ≤ 8 + i) := by omega
    simp [hi, h1, h2, h3, h5]
  · have h4 : ¬ (i = 1) := by omega
    simp [hi, h4]

/-- C16 at the failing input: with the PSIZE field holding 1 before, `flash_init` leaves 3,
not 2. -/
theorem flash_init_psize_or_witness :
    (field samplePsizeFlash.CR FLASH_CR_PSIZE 2 = 1 ∧
      field samplePsizeFlash.CR FLASH_CR_PSIZE 2 ||| 2 = 3 ∧
      EventuallyIdle samplePsizeFlash.SR) ∧
    ((∃ fuel t, flash_init fuel 16000000 samplePsizeFlash = some t) ∧
    ∀ fuel t, flash_init fuel 16000000 samplePsizeFlash = some t →
      field t.CR FLASH_CR_PSIZE 2 = field samplePsizeFlash.CR FLASH_CR_PSIZE 2 ||| 2) :=
  ⟨⟨by decide, by decide, sampleSR_eventuallyIdle⟩,
   flash_init_psize_or 16000000 samplePsizeFlash sampleSR_eventuallyIdle⟩

/-! ## Protection manager: what a level change leaves alone -/

theorem testBit_of_lt_256 (x k : Nat) (hx : x < 256) (hk : 8 ≤ k) : x.testBit k = false := by
  have h8 : (2 : Nat) ^ 8 ≤ 2 ^ k := Nat.pow_le_pow_right (by norm_num) hk
  exact Nat.testBit_lt_two_pow (lt_of_lt_of_le hx h8)

/-- C19: for every prior option-control register value, every level and every 8-bit mask,
`flash_set_protection_level` returns (the hardware becoming idle) having changed no bit of the
option-control register other than SPRMOD, the 8 bits of the nWRP bitmap, OPTSTRT and
OPTLOCK. -/
theorem flash_set_protection_level_frame (prot_level sectors : Nat) (s : Flash)
    (hs : sectors < 256) (hidle : EventuallyIdle s.SR) :
    (∃ fuel t, flash_set_protection_level fuel prot_level sectors s = some t) ∧
    ∀ fuel t, flash_set_protection_level fuel prot_level sectors s = some t →
      ∀ i, i < 32 → i ≠ FLASH_OPTCR_OPTLOCK → i ≠ FLASH_OPTCR_OPTSTRT →
        i ≠ FLASH_OPTCR_SPRMOD → ¬ (FLASH_OPTCR_NWRP ≤ i ∧ i < FLASH_OPTCR_NWRP + 8) →
        t.OPTCR.testBit i = s.OPTCR.testBit i := by
  refine ⟨flash_set_protection_level_returns _ _ s hidle, ?_⟩
  intro fuel t ht i h32 h0 h1 h31 hmap
  obtain ⟨hopt, -⟩ := flash_set_protection_level_some _ _ _ _ _ ht
  rw [hopt]
  unfold FLASH_OPTCR_OPTLOCK at h0
  unfold FLASH_OPTCR_OPTSTRT at h1
  unfold FLASH_OPTCR_SPRMOD at h31
  unfold FLASH_OPTCR_NWRP at hmap
  have hsec : (decide (16 ≤ i) && sectors.testBit (i - 16)) = false := by
    by_cases h16 : 16 ≤ i
    · have h24 : 8 ≤ i - 16 := by omega
      simp [testBit_of_lt_256 _ _ hs h24]
    · simp [h16]
  have hout : (decide (16 ≤ i) && decide (i < 16 + 8)) = false := by
    by_cases h16 : 16 ≤ i
    · have h24 : ¬ (i < 16 + 8) := fun h => hmap ⟨h16, h⟩
      simp [h24]
    · simp [h16]
  by_cases hrw : prot_level = FLASH_PROT_READ_WRITE
  · subst hrw
    rw [testBit_optcr_read_write]
    unfold FLASH_OPTCR_OPTLOCK FLASH_OPTCR_OPTSTRT FLASH_OPTCR_SPRMOD FLASH_OPTCR_NWRP
    rw [hsec, hout]
    simp [h32, h0, h1, h31]
  · by_cases hw : prot_level = FLASH_PROT_WRITE
    · subst hw
      rw [testBit_optcr_write]
      unfold FLASH_OPTCR_OPTLOCK FLASH_OPTCR_OPTSTRT FLASH_OPTCR_SPRMOD FLASH_OPTCR_NWRP
      rw [hsec, hout]
      simp [h32, h0, h1, h31]
    · rw [testBit_optcr_none _ _ _ _ hrw hw]
      unfold FLASH_OPTCR_OPTLOCK FLASH_OPTCR_OPTSTRT FLASH_OPTCR_SPRMOD FLASH_OPTCR_NWRP
      rw [hsec]
      simp [h32, h0, h1, h31]

/-- C19 at a concrete call: write protection of sectors 0 and 1 from the factory option
bytes. -/
theorem flash_set_protection_level_frame_witness :
    ((3 : Nat) < 256 ∧ EventuallyIdle sampleFlash.SR) ∧
    ((∃ fuel t, flash_set_protection_level fuel FLASH_PROT_WRITE 3 sampleFlash = some t) ∧
    ∀ fuel t, flash_set_protection_level fuel FLASH_PROT_WRITE 3 sampleFlash = some t →
      ∀ i, i < 32 → i ≠ FLASH_OPTCR_OPTLOCK → i ≠ FLASH_OPTCR_OPTSTRT →
        i ≠ FLASH_OPTCR_SPRMOD → ¬ (FLASH_OPTCR_NWRP ≤ i ∧ i < FLASH_OPTCR_NWRP + 8) →
        t.OPTCR.testBit i = sampleFlash.OPTCR.testBit i) :=
  ⟨⟨by decide, sampleSR_eventuallyIdle⟩,
   flash_set_protection_level_frame FLASH_PROT_WRITE 3 sampleFlash (by decide)
    sampleSR_eventuallyIdle⟩

/-! ## GPIO port -/

theorem testBit_65535 (i : Nat) : Nat.testBit 65535 i = decide (i < 16) := by
  have h : (65535 : Nat) = 2 ^ 16 - 1 := by norm_num
  rw [h, Nat.testBit_two_pow_sub_one]

theorem testBit_of_lt_two_pow_32 (x i : Nat) (hx : x < 2 ^ 32) (hi : ¬ (i < 32)) :
    x.testBit i = false := by
  have h : (2 : Nat) ^ 32 ≤ 2 ^ i := Nat.pow_le_pow_right (by norm_num) (by omega)
  exact Nat.testBit_lt_two_pow (lt_of_lt_of_le hx h)

/-- C18, the claim refuted on a concrete call: writing the value 0x1234 to a port leaves the
low 16 bits of its output data register equal to 0, not to 0x1234. -/
theorem gpio_write_port_value_not_written :
    field (gpio_write_port sampleGpio 0x1234).ODR 0 16 = 0 ∧
    field (gpio_write_port sampleGpio 0x1234).ODR 0 16 ≠ 0x1234 := by
  decide

/-- C18 as amended: for every prior output-data register value and every value,
`gpio_write_port` sets the low 16 bits of the output data register to `0xFFFF` when the value
is `GPIO_PIN_HIGH` and clears them to 0 for every other value; the upper 16 bits are as
before. -/
theorem gpio_write_port_all_or_none (gpiox : Gpio) (value : Nat) :
    field (gpio_write_port gpiox value).ODR 0 16
      = (if value = GPIO_PIN_HIGH then 0xFFFF else 0) ∧
    field (gpio_write_port gpiox value).ODR 16 16 = field gpiox.ODR 16 16 := by
  unfold gpio_write_port
  by_cases hv : value = GPIO_PIN_HIGH
  · rw [if_pos hv, if_pos hv]
    constructor
    · apply Nat.eq_of_testBit_eq
      intro i
      simp only [testBit_field, testBit_u32, Nat.testBit_or, testBit_65535]
      by_cases hi : i < 16
      · have h1 : i < 32 := by omega
        simp [hi, h1]
      · simp [hi]
    · apply Nat.eq_of_testBit_eq
      intro i
      simp only [testBit_field, testBit_u32, Nat.testBit_or, testBit_65535]
      by_cases hi : i < 16
      · have h1 : 16 + i < 32 := by omega
        simp [hi, h1]
      · simp [hi]
  · rw [if_neg hv, if_neg hv]
    constructor
    · apply Nat.eq_of_testBit_eq
      intro i
      simp only [testBit_field, testBit_u32, Nat.testBit_and, testBit_not32, testBit_65535,
        Nat.zero_testBit]
      by_cases hi : i < 16
      · simp [hi]
      · simp [hi]
    · apply Nat.eq_of_testBit_eq
      intro i
      simp only [testBit_field, testBit_u32, Nat.testBit_and, testBit_not32, testBit_65535]
      by_cases hi : i < 16
      · have h1 : 16 + i < 32 := by omega
        simp [hi, h1]
      · simp [hi]

/-- C20: for every prior 32-bit output-data register value, every pin number in 0..15 and every
value, `gpio_write_pin` leaves bit `pin_number` of the output data register set when the value
is `GPIO_PIN_HIGH` and clear for every other value, and every other bit as before; two
successive `gpio_toggle_pin` calls on the same pin restore the port registers. -/
theorem gpio_write_pin_and_toggle (gpiox : Gpio) (pin_number value : Nat)
    (hpin : pin_number < 16) (hodr : gpiox.ODR < 2 ^ 32) :
    (∀ i, i ≠ pin_number →
      (gpio_write_pin gpiox pin_number value).ODR.testBit i = gpiox.ODR.testBit i) ∧
    (gpio_write_pin gpiox pin_number value).ODR.testBit pin_number
      = decide (value = GPIO_PIN_HIGH) ∧
    gpio_toggle_pin (gpio_toggle_pin gpiox pin_number) pin_number = gpiox := by
  have hp32 : pin_number < 32 := by omega
  refine ⟨?_, ?_, ?_⟩
  · intro i hi
    have hne : ¬ (pin_number = i) := fun h => hi h.symm
    unfold gpio_write_pin
    by_cases h32 : i < 32
    · split_ifs <;>
        simp only [testBit_u32, testBit_not32, testBit_one_shiftLeft, Nat.testBit_or,
          Nat.testBit_and] <;>
        simp [h32, hne]
    · rw [testBit_of_lt_two_pow_32 _ _ hodr h32]
      split_ifs <;> simp [testBit_u32, h32]
  · unfold gpio_write_pin
    split_ifs with hv <;>
      simp only [testBit_u32, testBit_not32, testBit_one_shiftLeft, Nat.testBit_or,
        Nat.testBit_and] <;>
      simp [hp32, hv]
  · have hodr2 : u32 (u32 (gpiox.ODR ^^^ u32 (1 <<< pin_number)) ^^^ u32 (1 <<< pin_number))
        = gpiox.ODR := by
      apply Nat.eq_of_testBit_eq
      intro i
      by_cases h32 : i < 32
      · simp only [testBit_u32, Nat.testBit_xor, testBit_one_shiftLeft]
        cases gpiox.ODR.testBit i <;> cases decide (pin_number = i) <;> simp [h32]
      · rw [testBit_of_lt_two_pow_32 _ _ hodr h32]
        simp [testBit_u32, h32]
    cases gpiox with
    | mk m o sp pu idr odr =>
      simp only [gpio_toggle_pin] at hodr2 ⊢
      rw [hodr2]

/-- C20 at a concrete call: pin 4 of a port whose output data register holds 0xABCD00F0. -/
theorem gpio_write_pin_and_toggle_witness :
    (gpio_write_pin sampleGpio 4 0).ODR = 0xABCD00E0 ∧
    ((∀ i, i ≠ 4 →
      (gpio_write_pin sampleGpio 4 0).ODR.testBit i = sampleGpio.ODR.testBit i) ∧
    (gpio_write_pin sampleGpio 4 0).ODR.testBit 4 = decide (0 = GPIO_PIN_HIGH) ∧
    gpio_toggle_pin (gpio_toggle_pin sampleGpio 4) 4 = sampleGpio) :=
  ⟨by decide, gpio_write_pin_and_toggle sampleGpio 4 0 (by decide) (by decide)⟩

end Stm32
